import Mathlib

/-!
Shallow embedding of `autogpt/llm_utils.py` (Auto-GPT): the retrying chat
dispatcher `create_chat_completion`, the plugin short-circuit hook, the
local-model transcript flattening `get_message_string`, the AI-function
helper `call_ai_function`, and the two embedding operations
`get_ada_embedding` / `create_embedding_with_ada`.

The embedding is executable.  External effects (backend calls, sleeps,
operator-log writes, the one-time rate-limit warning) are recorded in an
event trace; the nondeterminism of the backend is an oracle ("world")
giving the outcome of the k-th backend call of a dispatch.
-/

namespace LlmUtils

/-- A chat message (`Message` typed dict: role + content). -/
structure Message where
  role : String
  content : String
deriving DecidableEq, Repr

/-- Errors a backend call can raise: `RateLimitError`, or an
`APIError`/`Timeout` carrying an `http_status`. -/
inductive BackendError where
  | rateLimit
  | apiError (http_status : Nat)
deriving DecidableEq, Repr

/-- Generation kwargs handed to the local model
(`max_new_tokens`, `eos_token_id`, `pad_token_id`). -/
structure GenKwargs where
  max_new_tokens : Option Nat
  eos_token_id : Nat
  pad_token_id : Nat
deriving DecidableEq, Repr

/-- The request a single backend attempt sends, per backend branch. -/
inductive BackendRequest where
  | azureReq (deployment_id : String) (model : Option String)
      (messages : List Message) (temperature : Rat) (max_tokens : Option Nat)
  | hostedReq (model : Option String) (messages : List Message)
      (temperature : Rat) (max_tokens : Option Nat)
  | localReq (model : Option String) (input_text : String) (kwargs : GenKwargs)
deriving DecidableEq, Repr

/-- Observable events of one dispatch: backend attempts, absorbed
retryable failures, the billing warning (`logger.double_check` on first
rate limit), backoff sleeps, the terminal failure log
(`logger.typewriter_log` + `logger.double_check`), and embedding calls. -/
inductive Event where
  | backendCall (req : BackendRequest)
  | caughtRateLimit
  | caughtBadGateway
  | warnRateLimit
  | sleep (seconds : Nat)
  | fatalLog
  | doubleCheck
  | embedCall (text_list : List String) (model : String)
deriving DecidableEq, Repr

/-- A plugin, with the four capabilities `create_chat_completion` uses. -/
structure Plugin where
  can_handle_chat_completion :
    List Message → Option String → Rat → Option Nat → Bool
  handle_chat_completion :
    List Message → Option String → Rat → Option Nat → Option String
  can_handle_on_response : Bool
  on_response : String → String

/-- The fields of the `Config` singleton that `llm_utils.py` reads. -/
structure Config where
  debug_mode : Bool
  use_azure : Bool
  use_local_model : Bool
  temperature : Rat
  smart_llm_model : String
  plugins : List Plugin
  get_azure_deployment_id_for_model : Option String → String

/-- One choice of a hosted-API response envelope. -/
structure ChatChoice where
  message : Message
deriving DecidableEq, Repr

/-- A hosted-API response envelope (`response.choices[0].message["content"]`
is extracted from it). -/
structure ChatResponse where
  choices : List ChatChoice
deriving DecidableEq, Repr

/-- The external world of one dispatch: whether the k-th backend call
fails (and how), and the value it returns when it succeeds (an envelope
for the hosted/azure API, a decoded string for the local model). -/
structure World where
  failures : Nat → Option BackendError
  apiValue : Nat → ChatResponse
  localValue : Nat → String

/-- Outcome of the k-th hosted/azure API call. -/
def World.apiOracle (w : World) (k : Nat) : Except BackendError ChatResponse :=
  match w.failures k with
  | some e => .error e
  | none => .ok (w.apiValue k)

/-- Outcome of the k-th local-model generation (decoded text). -/
def World.localOracle (w : World) (k : Nat) : Except BackendError String :=
  match w.failures k with
  | some e => .error e
  | none => .ok (w.localValue k)

/-- Result of the retry `for` loop: a response was obtained (`break`),
an exception escaped the loop, or the loop ran out of attempts with
`response` still `None`. -/
inductive LoopResult (α : Type) where
  | got (r : α)
  | raisedErr (e : BackendError)
  | exhausted
deriving DecidableEq, Repr

/-- What `create_chat_completion` finally does: return text, propagate a
backend exception, raise `RuntimeError` (exhausted + debug mode),
`quit(1)` (exhausted, normal mode), or crash extracting `choices[0]`. -/
inductive DispatchOutcome where
  | returned (text : String)
  | raised (e : BackendError)
  | raisedRuntimeError
  | exited (code : Nat)
  | raisedIndexError
deriving DecidableEq, Repr

/-- `get_message_string`: flatten a conversation for the local model. -/
def get_message_string (messages : List Message) : String :=
  String.join (messages.map
    (fun m => "<|start|>" ++ m.role ++ "\n" ++ m.content ++ "<|end|>\n"))

/-- The plugin pre-call loop of `create_chat_completion`: first plugin
whose `can_handle_chat_completion` is true and whose
`handle_chat_completion` is not `None` short-circuits the dispatch. -/
def pluginScan (messages : List Message) (model : Option String)
    (temperature : Rat) (max_tokens : Option Nat) :
    List Plugin → Option String
  | [] => none
  | p :: ps =>
    if p.can_handle_chat_completion messages model temperature max_tokens then
      match p.handle_chat_completion messages model temperature max_tokens with
      | some message => some message
      | none => pluginScan messages model temperature max_tokens ps
    else pluginScan messages model temperature max_tokens ps

/-- The plugin post-call loop: every plugin with
`can_handle_on_response` transforms the response, in registration order. -/
def applyOnResponse (plugins : List Plugin) (resp : String) : String :=
  plugins.foldl (fun r p => if p.can_handle_on_response then p.on_response r else r) resp

/-- The request one attempt sends, selected by the configured backend
(azure first, then local, then hosted — the `if`/`elif` order of the code). -/
def requestOf (cfg : Config) (messages : List Message) (model : Option String)
    (temperature : Rat) (max_tokens : Option Nat) : BackendRequest :=
  if cfg.use_azure then
    .azureReq (cfg.get_azure_deployment_id_for_model model) model messages
      temperature max_tokens
  else if cfg.use_local_model then
    .localReq model (get_message_string messages) ⟨max_tokens, 50256, 50256⟩
  else
    .hostedReq model messages temperature max_tokens

/-- The retry `for attempt in range(num_retries)` loop, with `fuel`
counting the remaining iterations.  Per iteration: one backend call;
success breaks; `RateLimitError` warns once then falls to the sleep;
`APIError`/`Timeout` re-raises unless the status is 502 and this is not
the last attempt; surviving failures sleep `2 ** (attempt + 2)`. -/
def retryLoopAux {α : Type} (oracle : Nat → Except BackendError α)
    (req : BackendRequest) (num_retries : Nat) :
    Nat → Bool → Nat → LoopResult α × List Event
  | _, _, 0 => (.exhausted, [])
  | attempt, warned_user, fuel + 1 =>
    let backoff := 2 ^ (attempt + 2)
    match oracle attempt with
    | .ok r => (.got r, [.backendCall req])
    | .error .rateLimit =>
      let warnTrace := if warned_user then [] else [Event.warnRateLimit]
      let rest := retryLoopAux oracle req num_retries (attempt + 1) true fuel
      (rest.1, [Event.backendCall req, Event.caughtRateLimit] ++ warnTrace
        ++ [Event.sleep backoff] ++ rest.2)
    | .error (.apiError s) =>
      if s ≠ 502 then (.raisedErr (.apiError s), [.backendCall req])
      else if attempt = num_retries - 1 then (.raisedErr (.apiError s), [.backendCall req])
      else
        let rest := retryLoopAux oracle req num_retries (attempt + 1) warned_user fuel
        (rest.1, [Event.backendCall req, Event.caughtBadGateway, Event.sleep backoff]
          ++ rest.2)

/-- The retry loop started at attempt 0, `warned_user = False`. -/
def retryLoop {α : Type} (oracle : Nat → Except BackendError α)
    (req : BackendRequest) (num_retries : Nat) : LoopResult α × List Event :=
  retryLoopAux oracle req num_retries 0 false num_retries

/-- Exhaustion behavior after the fatal log: `RuntimeError` in debug
mode, `quit(1)` otherwise. -/
def exhaustOutcome (cfg : Config) : DispatchOutcome :=
  if cfg.debug_mode then .raisedRuntimeError else .exited 1

/-- Post-loop processing when the loop ran against the hosted/azure API:
extract `choices[0].message["content"]`, run response plugins; on
exhaustion log fatally then raise/quit. -/
def finishApi (cfg : Config) :
    LoopResult ChatResponse × List Event → DispatchOutcome × List Event
  | (.got r, tr) =>
    match r.choices.head? with
    | some c => (.returned (applyOnResponse cfg.plugins c.message.content), tr)
    | none => (.raisedIndexError, tr)
  | (.raisedErr e, tr) => (.raised e, tr)
  | (.exhausted, tr) => (exhaustOutcome cfg, tr ++ [Event.fatalLog, Event.doubleCheck])

/-- Post-loop processing when the loop ran against the local model: the
response is already the text. -/
def finishLocal (cfg : Config) :
    LoopResult String × List Event → DispatchOutcome × List Event
  | (.got s, tr) => (.returned (applyOnResponse cfg.plugins s), tr)
  | (.raisedErr e, tr) => (.raised e, tr)
  | (.exhausted, tr) => (exhaustOutcome cfg, tr ++ [Event.fatalLog, Event.doubleCheck])

/-- `create_chat_completion`: plugin short-circuit scan, then the retry
loop against the configured backend, then post-processing. -/
def create_chat_completion (cfg : Config) (world : World)
    (messages : List Message) (model : Option String)
    (temperature : Rat) (max_tokens : Option Nat) :
    DispatchOutcome × List Event :=
  match pluginScan messages model temperature max_tokens cfg.plugins with
  | some message => (.returned message, [])
  | none =>
    if cfg.use_azure then
      finishApi cfg (retryLoop world.apiOracle
        (requestOf cfg messages model temperature max_tokens) 10)
    else if cfg.use_local_model then
      finishLocal cfg (retryLoop world.localOracle
        (requestOf cfg messages model temperature max_tokens) 10)
    else
      finishApi cfg (retryLoop world.apiOracle
        (requestOf cfg messages model temperature max_tokens) 10)

/-- A Python value appearing in a `call_ai_function` argument list. -/
inductive PyVal where
  | vNone
  | vInt (n : Int)
  | vStr (s : String)
deriving DecidableEq, Repr

/-- Python `str()` on the modelled values. -/
def pyStr : PyVal → String
  | .vNone => "None"
  | .vInt n => toString n
  | .vStr s => s

/-- `str(arg) if arg is not None else "None"`. -/
def argToStr (v : PyVal) : String :=
  match v with
  | .vNone => "None"
  | v => pyStr v

/-- The two-turn conversation `call_ai_function` builds. -/
def ai_function_messages (function : String) (args : List PyVal)
    (description : String) : List Message :=
  [⟨"system",
    "You are now the following python function: ```# " ++ description
      ++ "\n" ++ function ++ "```\n\nOnly respond with your `return` value."⟩,
   ⟨"user", String.intercalate ", " (args.map argToStr)⟩]

/-- `call_ai_function`: resolve the model default, build the two-turn
conversation, dispatch once with temperature 0. -/
def call_ai_function (cfg : Config) (world : World) (function : String)
    (args : List PyVal) (description : String) (model : Option String) :
    DispatchOutcome × List Event :=
  let model := match model with
    | none => cfg.smart_llm_model
    | some m => m
  create_chat_completion cfg world (ai_function_messages function args description)
    (some model) 0 none

/-- An embedding vector (list of numbers) returned by the embedding API. -/
abbrev Embedding := List Rat

/-- What an embedding operation does: return the vector, return `None`
(fall off the end of the loop), or propagate an exception. -/
inductive EmbedOutcome where
  | returnedVec (v : Embedding)
  | returnedNone
  | raisedE (e : BackendError)
deriving DecidableEq, Repr

/-- `get_ada_embedding`: replace newlines by spaces, then a single
`embedding_create` call — any failure propagates, no retry. -/
def get_ada_embedding (oracle : Nat → Except BackendError Embedding)
    (text : String) : EmbedOutcome × List Event :=
  let text := text.replace "\n" " "
  match oracle 0 with
  | .ok v => (.returnedVec v, [.embedCall [text] "text-embedding-ada-002"])
  | .error e => (.raisedE e, [.embedCall [text] "text-embedding-ada-002"])

/-- The retry loop of `create_embedding_with_ada`: success returns from
inside the `try`; `RateLimitError` is passed over; `APIError`/`Timeout`
re-raises unless 502-and-not-last; surviving failures sleep
`2 ** (attempt + 2)`; running out of attempts falls off and yields `None`. -/
def embedLoopAux (oracle : Nat → Except BackendError Embedding) (text : String)
    (num_retries : Nat) : Nat → Nat → EmbedOutcome × List Event
  | _, 0 => (.returnedNone, [])
  | attempt, fuel + 1 =>
    let backoff := 2 ^ (attempt + 2)
    match oracle attempt with
    | .ok v => (.returnedVec v, [.embedCall [text] "text-embedding-ada-002"])
    | .error .rateLimit =>
      let rest := embedLoopAux oracle text num_retries (attempt + 1) fuel
      (rest.1, [Event.embedCall [text] "text-embedding-ada-002", Event.sleep backoff]
        ++ rest.2)
    | .error (.apiError s) =>
      if s ≠ 502 then
        (.raisedE (.apiError s), [.embedCall [text] "text-embedding-ada-002"])
      else if attempt = num_retries - 1 then
        (.raisedE (.apiError s), [.embedCall [text] "text-embedding-ada-002"])
      else
        let rest := embedLoopAux oracle text num_retries (attempt + 1) fuel
        (rest.1, [Event.embedCall [text] "text-embedding-ada-002", Event.sleep backoff]
          ++ rest.2)

/-- `create_embedding_with_ada`: the retry loop on the unmodified text. -/
def create_embedding_with_ada (oracle : Nat → Except BackendError Embedding)
    (text : String) : EmbedOutcome × List Event :=
  embedLoopAux oracle text 10 0 10

/-- Whether an event is a chat-backend call. -/
def isCall (e : Event) : Bool :=
  match e with | .backendCall _ => true | _ => false

/-- Whether an event is an embedding-backend call. -/
def isEmbedCall (e : Event) : Bool :=
  match e with | .embedCall _ _ => true | _ => false

/-- Whether an event is the rate-limit billing warning. -/
def isWarn (e : Event) : Bool :=
  match e with | .warnRateLimit => true | _ => false

/-- Number of chat-backend attempts recorded in a trace. -/
def countCalls (tr : List Event) : Nat :=
  tr.countP isCall

/-- Number of embedding-backend attempts recorded in a trace. -/
def countEmbedCalls (tr : List Event) : Nat :=
  tr.countP isEmbedCall

/-- Number of rate-limit billing warnings recorded in a trace. -/
def countWarns (tr : List Event) : Nat :=
  tr.countP isWarn

/-- Spec-side reading of the short-circuit rule: the result of the first
plugin, in registration order, that opts in and produces a result. -/
def firstOptInResult (messages : List Message) (model : Option String)
    (temperature : Rat) (max_tokens : Option Nat) (plugins : List Plugin) :
    Option String :=
  plugins.findSome? (fun p =>
    if p.can_handle_chat_completion messages model temperature max_tokens then
      p.handle_chat_completion messages model temperature max_tokens
    else none)

/-- Lift a backend-call result to the outcome of an embedding operation. -/
def embedOutcomeOf : Except BackendError Embedding → EmbedOutcome
  | .ok v => .returnedVec v
  | .error e => .raisedE e

/-! ### Concrete instances used to exhibit runs of the code -/

/-- A plugin that opts in and produces the empty string. -/
def pluginOptInEmpty : Plugin :=
  ⟨fun _ _ _ _ => true, fun _ _ _ _ => some "", false, fun r => r⟩

/-- A plugin that opts in and produces `"hello"`. -/
def pluginOptInHello : Plugin :=
  ⟨fun _ _ _ _ => true, fun _ _ _ _ => some "hello", false, fun r => r⟩

/-- A two-turn example conversation. -/
def msgsEx : List Message := [⟨"system", "You are a calculator"⟩, ⟨"user", "2+2"⟩]

/-- Hosted-backend configuration: no plugins, normal mode, ambient
temperature 1. -/
def cfgHosted : Config := ⟨false, false, false, 1, "smart-model", [], fun _ => "dep"⟩

/-- Hosted configuration with the empty-string plugin registered before
the `"hello"` plugin. -/
def cfgTwoPlugins : Config :=
  ⟨false, false, false, 1, "smart-model", [pluginOptInEmpty, pluginOptInHello],
   fun _ => "dep"⟩

/-- Hosted configuration with one opting-in plugin. -/
def cfgOnePlugin : Config :=
  ⟨false, false, false, 1, "smart-model", [pluginOptInHello], fun _ => "dep"⟩

/-- Local-model configuration: no plugins, normal mode. -/
def cfgLocal : Config := ⟨false, false, true, 1, "smart-model", [], fun _ => "dep"⟩

/-- A hosted response whose first choice carries `"ok"`. -/
def respOK : ChatResponse := ⟨[⟨⟨"assistant", "ok"⟩⟩]⟩

/-- A world whose backend always succeeds. -/
def worldOK : World := ⟨fun _ => none, fun _ => respOK, fun _ => "loc"⟩

/-- A world that rate-limits the first attempt and then succeeds. -/
def worldRateThenOK : World :=
  ⟨fun k => if k = 0 then some .rateLimit else none, fun _ => respOK, fun _ => "loc"⟩

/-- A world that rate-limits every attempt. -/
def worldAllRate : World := ⟨fun _ => some .rateLimit, fun _ => respOK, fun _ => "loc"⟩

/-- A world that rate-limits attempt 0 and fails attempt 1 with
status 503. -/
def world503At1 : World :=
  ⟨fun k => if k = 0 then some .rateLimit else some (.apiError 503),
   fun _ => respOK, fun _ => "loc"⟩

/-- A world that fails every attempt with a gateway 502. -/
def world502 : World :=
  ⟨fun _ => some (.apiError 502), fun _ => respOK, fun _ => "loc"⟩

/-- An embedding oracle that always rate-limits. -/
def embedOracleAllRate : Nat → Except BackendError Embedding :=
  fun _ => .error .rateLimit

/-- An embedding oracle that always succeeds with the empty vector. -/
def embedOracleOK : Nat → Except BackendError Embedding := fun _ => .ok []

/-- An embedding oracle that rate-limits the first attempt and then
succeeds with the empty vector. -/
def embedOracleRateThenOK : Nat → Except BackendError Embedding :=
  fun k => if k = 0 then .error .rateLimit else .ok []

/-- An embedding oracle that fails the first attempt with a gateway 502
and then succeeds with the empty vector. -/
def embedOracle502ThenOK : Nat → Except BackendError Embedding :=
  fun k => if k = 0 then .error (.apiError 502) else .ok []

/-- Every sleep in the trace happens with at least one completed attempt
and lasts `2 ^ (attempts completed + 1)` seconds, where `base` attempts
completed before this trace segment. -/
def SleepIndexOK (base : Nat) (tr : List Event) : Prop :=
  ∀ i d, tr[i]? = some (Event.sleep d) →
    1 ≤ base + countCalls (tr.take i) ∧ d = 2 ^ (base + countCalls (tr.take i) + 1)

/-- Every sleep in the trace immediately follows an absorbed retryable
failure (or the billing warning that such a failure just emitted). -/
def SleepPreceded (tr : List Event) : Prop :=
  ∀ i d, tr[i]? = some (Event.sleep d) →
    ∃ j e, i = j + 1 ∧ tr[j]? = some e ∧
      (e = Event.caughtRateLimit ∨ e = Event.caughtBadGateway ∨ e = Event.warnRateLimit)

/-! ## Helper lemmas -/

/-- The plugin pre-call loop computes the first opting-in plugin's
non-`None` result. -/
theorem pluginScan_eq_firstOptInResult (messages : List Message)
    (model : Option String) (temperature : Rat) (max_tokens : Option Nat)
    (plugins : List Plugin) :
    pluginScan messages model temperature max_tokens plugins
      = firstOptInResult messages model temperature max_tokens plugins := by
  induction plugins with
  | nil => rfl
  | cons p ps ih =>
    simp only [pluginScan, firstOptInResult, List.findSome?]
    by_cases h : p.can_handle_chat_completion messages model temperature max_tokens
    · simp only [h, if_true]
      cases p.handle_chat_completion messages model temperature max_tokens with
      | some m => rfl
      | none => exact ih
    · simp only [h, if_false]
      exact ih

theorem countCalls_nil : countCalls [] = 0 := rfl

theorem countCalls_append (tr₁ tr₂ : List Event) :
    countCalls (tr₁ ++ tr₂) = countCalls tr₁ + countCalls tr₂ :=
  List.countP_append _ tr₁ tr₂

theorem countCalls_cons_call (r : BackendRequest) (tr : List Event) :
    countCalls (Event.backendCall r :: tr) = countCalls tr + 1 := by
  simp [countCalls, List.countP_cons, isCall]

theorem countCalls_cons_other (e : Event) (he : isCall e = false) (tr : List Event) :
    countCalls (e :: tr) = countCalls tr := by
  simp [countCalls, List.countP_cons, he]

theorem sleepIndexOK_nil (base : Nat) : SleepIndexOK base [] := by
  intro i d h
  simp at h

theorem sleepIndexOK_cons_call (base : Nat) (r : BackendRequest) (tr : List Event)
    (h : SleepIndexOK (base + 1) tr) :
    SleepIndexOK base (Event.backendCall r :: tr) := by
  intro i d hi
  cases i with
  | zero => simp at hi
  | succ j =>
    rw [List.getElem?_cons_succ] at hi
    obtain ⟨h1, h2⟩ := h j d hi
    rw [List.take_succ_cons, countCalls_cons_call]
    constructor
    · omega
    · rw [h2]
      congr 1
      omega

theorem sleepIndexOK_cons_other (base : Nat) (e : Event) (he : isCall e = false)
    (hs : ∀ d, e ≠ Event.sleep d) (tr : List Event)
    (h : SleepIndexOK base tr) :
    SleepIndexOK base (e :: tr) := by
  intro i d hi
  cases i with
  | zero =>
    rw [List.getElem?_cons_zero] at hi
    exact absurd (Option.some.inj hi) (hs d)
  | succ j =>
    rw [List.getElem?_cons_succ] at hi
    obtain ⟨h1, h2⟩ := h j d hi
    rw [List.take_succ_cons, countCalls_cons_other e he]
    exact ⟨h1, h2⟩

theorem sleepIndexOK_cons_sleep (base : Nat) (hb : 1 ≤ base) (tr : List Event)
    (h : SleepIndexOK base tr) :
    SleepIndexOK base (Event.sleep (2 ^ (base + 1)) :: tr) := by
  intro i d hi
  cases i with
  | zero =>
    rw [List.getElem?_cons_zero] at hi
    have hi' : Event.sleep (2 ^ (base + 1)) = Event.sleep d := Option.some.inj hi
    have hd : 2 ^ (base + 1) = d := by injection hi'
    simp only [List.take_zero, countCalls_nil, Nat.add_zero]
    exact ⟨hb, hd.symm⟩
  | succ j =>
    rw [List.getElem?_cons_succ] at hi
    obtain ⟨h1, h2⟩ := h j d hi
    rw [List.take_succ_cons,
      countCalls_cons_other _ (by simp [isCall])]
    exact ⟨h1, h2⟩

/-! ### Unfolding equations for the retry loop -/

theorem retryLoopAux_zero {α : Type} (oracle : Nat → Except BackendError α)
    (req : BackendRequest) (N attempt : Nat) (warned : Bool) :
    retryLoopAux oracle req N attempt warned 0 = (.exhausted, []) := rfl

theorem retryLoopAux_ok {α : Type} (oracle : Nat → Except BackendError α)
    (req : BackendRequest) (N attempt : Nat) (warned : Bool) (fuel : Nat)
    (r : α) (h : oracle attempt = .ok r) :
    retryLoopAux oracle req N attempt warned (fuel + 1)
      = (.got r, [.backendCall req]) := by
  simp only [retryLoopAux, h]

theorem retryLoopAux_rate {α : Type} (oracle : Nat → Except BackendError α)
    (req : BackendRequest) (N attempt : Nat) (warned : Bool) (fuel : Nat)
    (h : oracle attempt = .error .rateLimit) :
    retryLoopAux oracle req N attempt warned (fuel + 1)
      = ((retryLoopAux oracle req N (attempt + 1) true fuel).1,
         [Event.backendCall req, Event.caughtRateLimit]
           ++ (if warned then [] else [Event.warnRateLimit])
           ++ [Event.sleep (2 ^ (attempt + 2))]
           ++ (retryLoopAux oracle req N (attempt + 1) true fuel).2) := by
  simp only [retryLoopAux, h]

theorem retryLoopAux_api_non502 {α : Type} (oracle : Nat → Except BackendError α)
    (req : BackendRequest) (N attempt : Nat) (warned : Bool) (fuel : Nat)
    (s : Nat) (h : oracle attempt = .error (.apiError s)) (hs : s ≠ 502) :
    retryLoopAux oracle req N attempt warned (fuel + 1)
      = (.raisedErr (.apiError s), [.backendCall req]) := by
  simp only [retryLoopAux, h]
  rw [if_pos hs]

theorem retryLoopAux_api_502_last {α : Type} (oracle : Nat → Except BackendError α)
    (req : BackendRequest) (N attempt : Nat) (warned : Bool) (fuel : Nat)
    (h : oracle attempt = .error (.apiError 502)) (hl : attempt = N - 1) :
    retryLoopAux oracle req N attempt warned (fuel + 1)
      = (.raisedErr (.apiError 502), [.backendCall req]) := by
  subst hl
  simp only [retryLoopAux, h]
  simp

theorem retryLoopAux_api_502_retry {α : Type} (oracle : Nat → Except BackendError α)
    (req : BackendRequest) (N attempt : Nat) (warned : Bool) (fuel : Nat)
    (h : oracle attempt = .error (.apiError 502)) (hl : attempt ≠ N - 1) :
    retryLoopAux oracle req N attempt warned (fuel + 1)
      = ((retryLoopAux oracle req N (attempt + 1) warned fuel).1,
         [Event.backendCall req, Event.caughtBadGateway,
          Event.sleep (2 ^ (attempt + 2))]
           ++ (retryLoopAux oracle req N (attempt + 1) warned fuel).2) := by
  simp only [retryLoopAux, h, hl]
  simp

/-! ### Invariants of the retry loop -/

theorem retryLoopAux_countCalls {α : Type} (oracle : Nat → Except BackendError α)
    (req : BackendRequest) (N : Nat) :
    ∀ fuel attempt warned,
      countCalls (retryLoopAux oracle req N attempt warned fuel).2 ≤ fuel := by
  intro fuel
  induction fuel with
  | zero =>
    intro attempt warned
    rw [retryLoopAux_zero]
    simp [countCalls_nil]
  | succ f ih =>
    intro attempt warned
    cases h : oracle attempt with
    | ok r =>
      rw [retryLoopAux_ok oracle req N attempt warned f r h]
      simp [countCalls, List.countP_cons, isCall]
    | error e =>
      cases e with
      | rateLimit =>
        rw [retryLoopAux_rate oracle req N attempt warned f h]
        have := ih (attempt + 1) true
        cases warned <;>
          simp [countCalls, List.countP_cons, List.countP_append, isCall] at * <;>
          omega
      | apiError s =>
        by_cases hs : s = 502
        · subst hs
          by_cases hl : attempt = N - 1
          · rw [retryLoopAux_api_502_last oracle req N attempt warned f h hl]
            simp [countCalls, List.countP_cons, isCall]
          · rw [retryLoopAux_api_502_retry oracle req N attempt warned f h hl]
            have := ih (attempt + 1) warned
            simp [countCalls, List.countP_cons, List.countP_append, isCall] at *
            omega
        · rw [retryLoopAux_api_non502 oracle req N attempt warned f s h hs]
          simp [countCalls, List.countP_cons, isCall]

theorem retryLoopAux_head {α : Type} (oracle : Nat → Except BackendError α)
    (req : BackendRequest) (N : Nat) (fuel attempt : Nat) (warned : Bool) :
    (retryLoopAux oracle req N attempt warned fuel).2 = []
      ∨ ∃ rest, (retryLoopAux oracle req N attempt warned fuel).2
          = Event.backendCall req :: rest := by
  cases fuel with
  | zero => left; rw [retryLoopAux_zero]
  | succ f =>
    right
    cases h : oracle attempt with
    | ok r =>
      rw [retryLoopAux_ok oracle req N attempt warned f r h]
      exact ⟨[], rfl⟩
    | error e =>
      cases e with
      | rateLimit =>
        rw [retryLoopAux_rate oracle req N attempt warned f h]
        exact ⟨_, rfl⟩
      | apiError s =>
        by_cases hs : s = 502
        · subst hs
          by_cases hl : attempt = N - 1
          · rw [retryLoopAux_api_502_last oracle req N attempt warned f h hl]
            exact ⟨[], rfl⟩
          · rw [retryLoopAux_api_502_retry oracle req N attempt warned f h hl]
            exact ⟨_, rfl⟩
        · rw [retryLoopAux_api_non502 oracle req N attempt warned f s h hs]
          exact ⟨[], rfl⟩

theorem retryLoopAux_head_not_sleep {α : Type} (oracle : Nat → Except BackendError α)
    (req : BackendRequest) (N : Nat) (fuel attempt : Nat) (warned : Bool) (d : Nat) :
    ((retryLoopAux oracle req N attempt warned fuel).2)[0]?
      ≠ some (Event.sleep d) := by
  rcases retryLoopAux_head oracle req N fuel attempt warned with h | ⟨rest, h⟩ <;>
    rw [h] <;> simp

theorem retryLoopAux_calls_req {α : Type} (oracle : Nat → Except BackendError α)
    (req : BackendRequest) (N : Nat) :
    ∀ fuel attempt warned (r' : BackendRequest),
      Event.backendCall r' ∈ (retryLoopAux oracle req N attempt warned fuel).2 →
        r' = req := by
  intro fuel
  induction fuel with
  | zero =>
    intro attempt warned r' hm
    rw [retryLoopAux_zero] at hm
    simp at hm
  | succ f ih =>
    intro attempt warned r' hm
    cases h : oracle attempt with
    | ok r =>
      rw [retryLoopAux_ok oracle req N attempt warned f r h] at hm
      simp at hm
      exact hm
    | error e =>
      cases e with
      | rateLimit =>
        rw [retryLoopAux_rate oracle req N attempt warned f h] at hm
        cases warned <;> simp at hm
        · rcases hm with hm | hm
          · exact hm
          · exact ih (attempt + 1) true r' hm
        · rcases hm with hm | hm
          · exact hm
          · exact ih (attempt + 1) true r' hm
      | apiError s =>
        by_cases hs : s = 502
        · subst hs
          by_cases hl : attempt = N - 1
          · rw [retryLoopAux_api_502_last oracle req N attempt warned f h hl] at hm
            simp at hm
            exact hm
          · rw [retryLoopAux_api_502_retry oracle req N attempt warned f h hl] at hm
            simp at hm
            rcases hm with hm | hm
            · exact hm
            · exact ih (attempt + 1) warned r' hm
        · rw [retryLoopAux_api_non502 oracle req N attempt warned f s h hs] at hm
          simp at hm
          exact hm

theorem countWarns_nil : countWarns [] = 0 := rfl

theorem countWarns_append (tr₁ tr₂ : List Event) :
    countWarns (tr₁ ++ tr₂) = countWarns tr₁ + countWarns tr₂ :=
  List.countP_append _ tr₁ tr₂

theorem countWarns_cons (e : Event) (tr : List Event) :
    countWarns (e :: tr) = countWarns tr + (if isWarn e then 1 else 0) := by
  simp [countWarns, List.countP_cons]

theorem retryLoopAux_countWarns {α : Type} (oracle : Nat → Except BackendError α)
    (req : BackendRequest) (N : Nat) :
    ∀ fuel attempt warned,
      countWarns (retryLoopAux oracle req N attempt warned fuel).2
        ≤ (if warned then 0 else 1) := by
  intro fuel
  induction fuel with
  | zero =>
    intro attempt warned
    rw [retryLoopAux_zero]
    simp [countWarns_nil]
  | succ f ih =>
    intro attempt warned
    cases h : oracle attempt with
    | ok r =>
      rw [retryLoopAux_ok oracle req N attempt warned f r h]
      cases warned <;> simp [countWarns_cons, countWarns_nil, isWarn]
    | error e =>
      cases e with
      | rateLimit =>
        rw [retryLoopAux_rate oracle req N attempt warned f h]
        have hrec := ih (attempt + 1) true
        rw [if_pos rfl] at hrec
        cases warned
        · simp only [Bool.false_eq_true, if_false]
          simp only [countWarns_append, countWarns_cons, countWarns_nil, isWarn,
            List.cons_append, List.nil_append]
          simp
          omega
        · simp only [if_pos rfl]
          simp only [countWarns_append, countWarns_cons, countWarns_nil, isWarn,
            List.cons_append, List.nil_append]
          simp [countWarns_nil]
          omega
      | apiError s =>
        by_cases hs : s = 502
        · subst hs
          by_cases hl : attempt = N - 1
          · rw [retryLoopAux_api_502_last oracle req N attempt warned f h hl]
            cases warned <;> simp [countWarns_cons, countWarns_nil, isWarn]
          · rw [retryLoopAux_api_502_retry oracle req N attempt warned f h hl]
            have hrec := ih (attempt + 1) warned
            cases warned
            · rw [if_neg (by simp)] at hrec ⊢
              simp only [countWarns_append, countWarns_cons, countWarns_nil, isWarn,
                List.cons_append, List.nil_append]
              simp
              omega
            · rw [if_pos rfl] at hrec ⊢
              simp only [countWarns_append, countWarns_cons, countWarns_nil, isWarn,
                List.cons_append, List.nil_append]
              simp
              omega
        · rw [retryLoopAux_api_non502 oracle req N attempt warned f s h hs]
          cases warned <;> simp [countWarns_cons, countWarns_nil, isWarn]

theorem retryLoopAux_sleepIndexOK {α : Type} (oracle : Nat → Except BackendError α)
    (req : BackendRequest) (N : Nat) :
    ∀ fuel attempt warned,
      SleepIndexOK attempt (retryLoopAux oracle req N attempt warned fuel).2 := by
  intro fuel
  induction fuel with
  | zero =>
    intro attempt warned
    rw [retryLoopAux_zero]
    exact sleepIndexOK_nil attempt
  | succ f ih =>
    intro attempt warned
    cases h : oracle attempt with
    | ok r =>
      rw [retryLoopAux_ok oracle req N attempt warned f r h]
      exact sleepIndexOK_cons_call attempt req [] (sleepIndexOK_nil (attempt + 1))
    | error e =>
      cases e with
      | rateLimit =>
        rw [retryLoopAux_rate oracle req N attempt warned f h]
        cases warned
        · simp only [Bool.false_eq_true, if_false, List.cons_append, List.nil_append]
          refine sleepIndexOK_cons_call attempt req _ ?_
          refine sleepIndexOK_cons_other _ Event.caughtRateLimit (by simp [isCall])
            (by intro d hd; cases hd) _ ?_
          refine sleepIndexOK_cons_other _ Event.warnRateLimit (by simp [isCall])
            (by intro d hd; cases hd) _ ?_
          exact sleepIndexOK_cons_sleep (attempt + 1) (by omega) _ (ih (attempt + 1) true)
        · simp only [if_pos rfl, List.cons_append, List.nil_append]
          refine sleepIndexOK_cons_call attempt req _ ?_
          refine sleepIndexOK_cons_other _ Event.caughtRateLimit (by simp [isCall])
            (by intro d hd; cases hd) _ ?_
          exact sleepIndexOK_cons_sleep (attempt + 1) (by omega) _ (ih (attempt + 1) true)
      | apiError s =>
        by_cases hs : s = 502
        · subst hs
          by_cases hl : attempt = N - 1
          · rw [retryLoopAux_api_502_last oracle req N attempt warned f h hl]
            exact sleepIndexOK_cons_call attempt req [] (sleepIndexOK_nil (attempt + 1))
          · rw [retryLoopAux_api_502_retry oracle req N attempt warned f h hl]
            simp only [List.cons_append, List.nil_append]
            refine sleepIndexOK_cons_call attempt req _ ?_
            refine sleepIndexOK_cons_other _ Event.caughtBadGateway (by simp [isCall])
              (by intro d hd; cases hd) _ ?_
            exact sleepIndexOK_cons_sleep (attempt + 1) (by omega) _
              (ih (attempt + 1) warned)
        · rw [retryLoopAux_api_non502 oracle req N attempt warned f s h hs]
          exact sleepIndexOK_cons_call attempt req [] (sleepIndexOK_nil (attempt + 1))

theorem sleepPreceded_nil : SleepPreceded [] := by
  intro i d h
  simp at h

theorem sleepPreceded_single_call (r : BackendRequest) :
    SleepPreceded [Event.backendCall r] := by
  intro i d h
  cases i with
  | zero => simp at h
  | succ j => simp at h

theorem sleepPreceded_cons (x : Event) (hx : ∀ d, x ≠ Event.sleep d)
    (tr : List Event) (htr : SleepPreceded tr)
    (hfirst : ∀ d, tr[0]? = some (Event.sleep d) →
      x = Event.caughtRateLimit ∨ x = Event.caughtBadGateway ∨ x = Event.warnRateLimit) :
    SleepPreceded (x :: tr) := by
  intro i d hi
  cases i with
  | zero =>
    rw [List.getElem?_cons_zero] at hi
    exact absurd (Option.some.inj hi) (hx d)
  | succ j =>
    rw [List.getElem?_cons_succ] at hi
    cases j with
    | zero =>
      exact ⟨0, x, rfl, by rw [List.getElem?_cons_zero], hfirst d hi⟩
    | succ j2 =>
      obtain ⟨j', e, hj, he, hset⟩ := htr (j2 + 1) d hi
      refine ⟨j' + 1, e, by omega, ?_, hset⟩
      rw [List.getElem?_cons_succ]
      exact he

theorem sleepPreceded_fail_sleep (x : Event)
    (hxset : x = Event.caughtRateLimit ∨ x = Event.caughtBadGateway
      ∨ x = Event.warnRateLimit)
    (b : Nat) (rest : List Event) (hrest : SleepPreceded rest)
    (h0 : ∀ d, rest[0]? ≠ some (Event.sleep d)) :
    SleepPreceded (x :: Event.sleep b :: rest) := by
  intro i d hi
  cases i with
  | zero =>
    rw [List.getElem?_cons_zero] at hi
    rcases hxset with hx | hx | hx <;> subst hx <;> cases Option.some.inj hi
  | succ j =>
    rw [List.getElem?_cons_succ] at hi
    cases j with
    | zero =>
      exact ⟨0, x, rfl, by rw [List.getElem?_cons_zero], hxset⟩
    | succ j2 =>
      rw [List.getElem?_cons_succ] at hi
      cases j2 with
      | zero => exact absurd hi (h0 d)
      | succ j3 =>
        obtain ⟨j', e, hj, he, hset⟩ := hrest (j3 + 1) d hi
        refine ⟨j' + 2, e, by omega, ?_, hset⟩
        rw [List.getElem?_cons_succ, List.getElem?_cons_succ]
        exact he

theorem retryLoopAux_sleepPreceded {α : Type} (oracle : Nat → Except BackendError α)
    (req : BackendRequest) (N : Nat) :
    ∀ fuel attempt warned,
      SleepPreceded (retryLoopAux oracle req N attempt warned fuel).2 := by
  intro fuel
  induction fuel with
  | zero =>
    intro attempt warned
    rw [retryLoopAux_zero]
    exact sleepPreceded_nil
  | succ f ih =>
    intro attempt warned
    have hnosleep := retryLoopAux_head_not_sleep oracle req N f (attempt + 1)
    cases h : oracle attempt with
    | ok r =>
      rw [retryLoopAux_ok oracle req N attempt warned f r h]
      exact sleepPreceded_single_call req
    | error e =>
      cases e with
      | rateLimit =>
        rw [retryLoopAux_rate oracle req N attempt warned f h]
        cases warned
        · simp only [Bool.false_eq_true, if_false, List.cons_append, List.nil_append]
          refine sleepPreceded_cons _ (by intro d hd; cases hd) _ ?_
            (by intro d hd; simp at hd)
          refine sleepPreceded_cons _ (by intro d hd; cases hd) _ ?_
            (by intro d hd; simp at hd)
          exact sleepPreceded_fail_sleep _ (Or.inr (Or.inr rfl)) _ _
            (ih (attempt + 1) true) (hnosleep true)
        · simp only [if_pos rfl, List.cons_append, List.nil_append]
          refine sleepPreceded_cons _ (by intro d hd; cases hd) _ ?_
            (by intro d hd; simp at hd)
          exact sleepPreceded_fail_sleep _ (Or.inl rfl) _ _
            (ih (attempt + 1) true) (hnosleep true)
      | apiError s =>
        by_cases hs : s = 502
        · subst hs
          by_cases hl : attempt = N - 1
          · rw [retryLoopAux_api_502_last oracle req N attempt warned f h hl]
            exact sleepPreceded_single_call req
          · rw [retryLoopAux_api_502_retry oracle req N attempt warned f h hl]
            simp only [List.cons_append, List.nil_append]
            refine sleepPreceded_cons _ (by intro d hd; cases hd) _ ?_
              (by intro d hd; simp at hd)
            exact sleepPreceded_fail_sleep _ (Or.inr (Or.inl rfl)) _ _
              (ih (attempt + 1) warned) (hnosleep warned)
        · rw [retryLoopAux_api_non502 oracle req N attempt warned f s h hs]
          exact sleepPreceded_single_call req

theorem retryLoopAux_got_getLast {α : Type} (oracle : Nat → Except BackendError α)
    (req : BackendRequest) (N : Nat) :
    ∀ fuel attempt warned (r : α),
      (retryLoopAux oracle req N attempt warned fuel).1 = .got r →
        (retryLoopAux oracle req N attempt warned fuel).2.getLast?
          = some (Event.backendCall req) := by
  intro fuel
  induction fuel with
  | zero =>
    intro attempt warned r hres
    rw [retryLoopAux_zero] at hres
    cases hres
  | succ f ih =>
    intro attempt warned r hres
    cases h : oracle attempt with
    | ok r' =>
      rw [retryLoopAux_ok oracle req N attempt warned f r' h]
      rfl
    | error e =>
      cases e with
      | rateLimit =>
        rw [retryLoopAux_rate oracle req N attempt warned f h] at hres ⊢
        have hlast := ih (attempt + 1) true r hres
        have hne : (retryLoopAux oracle req N (attempt + 1) true f).2 ≠ [] := by
          intro hnil
          rw [hnil] at hlast
          cases hlast
        obtain ⟨y, ys, hcons⟩ := List.exists_cons_of_ne_nil hne
        rw [hcons] at hlast ⊢
        cases warned
        · simp only [Bool.false_eq_true, if_false, List.cons_append, List.nil_append]
          simp only [List.getLast?_cons_cons]
          exact hlast
        · simp only [if_pos rfl, List.cons_append, List.nil_append]
          simp only [List.getLast?_cons_cons]
          exact hlast
      | apiError s =>
        by_cases hs : s = 502
        · subst hs
          by_cases hl : attempt = N - 1
          · rw [retryLoopAux_api_502_last oracle req N attempt warned f h hl] at hres
            cases hres
          · rw [retryLoopAux_api_502_retry oracle req N attempt warned f h hl] at hres ⊢
            have hlast := ih (attempt + 1) warned r hres
            have hne : (retryLoopAux oracle req N (attempt + 1) warned f).2 ≠ [] := by
              intro hnil
              rw [hnil] at hlast
              cases hlast
            obtain ⟨y, ys, hcons⟩ := List.exists_cons_of_ne_nil hne
            rw [hcons] at hlast ⊢
            simp only [List.cons_append, List.nil_append]
            simp only [List.getLast?_cons_cons]
            exact hlast
        · rw [retryLoopAux_api_non502 oracle req N attempt warned f s h hs] at hres
          cases hres

/-- If the first `m` attempts starting at `attempt` fail retryably and
attempt `attempt + m` raises an `APIError` that is either non-502 or on
the last allowed attempt, the loop propagates that error after exactly
`m + 1` calls, ending on the failing call (no sleep after it). -/
theorem retryLoopAux_raises {α : Type} (oracle : Nat → Except BackendError α)
    (req : BackendRequest) (N : Nat) (s : Nat) :
    ∀ m fuel attempt warned, attempt + fuel = N → m < fuel →
      (∀ j, attempt ≤ j → j < attempt + m →
        (oracle j = .error .rateLimit ∨ oracle j = .error (.apiError 502))) →
      oracle (attempt + m) = .error (.apiError s) →
      (s ≠ 502 ∨ attempt + m = N - 1) →
      ∃ tr, retryLoopAux oracle req N attempt warned fuel
          = (.raisedErr (.apiError s), tr)
        ∧ countCalls tr = m + 1
        ∧ tr.getLast? = some (Event.backendCall req) := by
  intro m
  induction m with
  | zero =>
    intro fuel attempt warned hN hm _ hfail hlast
    obtain ⟨f, rfl⟩ : ∃ f, fuel = f + 1 := ⟨fuel - 1, by omega⟩
    rw [Nat.add_zero] at hfail hlast
    by_cases hs : s = 502
    · subst hs
      have hl : attempt = N - 1 := by
        rcases hlast with hne | hl
        · exact absurd rfl hne
        · exact hl
      exact ⟨[Event.backendCall req],
        retryLoopAux_api_502_last oracle req N attempt warned f hfail hl,
        by simp [countCalls_cons_call, countCalls_nil], rfl⟩
    · exact ⟨[Event.backendCall req],
        retryLoopAux_api_non502 oracle req N attempt warned f s hfail hs,
        by simp [countCalls_cons_call, countCalls_nil], rfl⟩
  | succ m ih =>
    intro fuel attempt warned hN hm hpre hfail hlast
    obtain ⟨f, rfl⟩ : ∃ f, fuel = f + 1 := ⟨fuel - 1, by omega⟩
    have hpre0 := hpre attempt (le_refl attempt) (by omega)
    have hpre' : ∀ j, attempt + 1 ≤ j → j < attempt + 1 + m →
        (oracle j = .error .rateLimit ∨ oracle j = .error (.apiError 502)) :=
      fun j h1 h2 => hpre j (by omega) (by omega)
    have hfail' : oracle (attempt + 1 + m) = .error (.apiError s) := by
      rw [show attempt + 1 + m = attempt + (m + 1) by omega]
      exact hfail
    have hlast' : s ≠ 502 ∨ attempt + 1 + m = N - 1 := by
      rcases hlast with hh | hh
      · exact Or.inl hh
      · exact Or.inr (by omega)
    have hrec := fun (w : Bool) =>
      ih f (attempt + 1) w (by omega) (by omega) hpre' hfail' hlast'
    rcases hpre0 with hrl | h502
    · obtain ⟨tr', heq, hcount, hget⟩ := hrec true
      have hne : tr' ≠ [] := by
        intro hnil
        rw [hnil] at hget
        cases hget
      obtain ⟨y, ys, hcons⟩ := List.exists_cons_of_ne_nil hne
      refine ⟨[Event.backendCall req, Event.caughtRateLimit]
          ++ (if warned then [] else [Event.warnRateLimit])
          ++ [Event.sleep (2 ^ (attempt + 2))] ++ tr', ?_, ?_, ?_⟩
      · rw [retryLoopAux_rate oracle req N attempt warned f hrl, heq]
      · have h1 : countCalls (if warned then [] else [Event.warnRateLimit]) = 0 := by
          cases warned <;> simp [countCalls, List.countP_cons, isCall]
        simp only [countCalls_append, countCalls_cons_call,
          countCalls_cons_other _ (by simp [isCall] : isCall Event.caughtRateLimit = false),
          countCalls_cons_other _ (by simp [isCall] : isCall (Event.sleep (2 ^ (attempt + 2))) = false),
          countCalls_nil, h1]
        omega
      · rw [hcons] at hget ⊢
        cases warned <;>
          simp only [if_pos rfl, Bool.false_eq_true, if_false, List.cons_append,
            List.nil_append, List.getLast?_cons_cons] <;> exact hget
    · obtain ⟨tr', heq, hcount, hget⟩ := hrec warned
      have hne : tr' ≠ [] := by
        intro hnil
        rw [hnil] at hget
        cases hget
      obtain ⟨y, ys, hcons⟩ := List.exists_cons_of_ne_nil hne
      have hnotlast : attempt ≠ N - 1 := by omega
      refine ⟨[Event.backendCall req, Event.caughtBadGateway,
          Event.sleep (2 ^ (attempt + 2))] ++ tr', ?_, ?_, ?_⟩
      · rw [retryLoopAux_api_502_retry oracle req N attempt warned f h502 hnotlast, heq]
      · simp only [countCalls_append, countCalls_cons_call,
          countCalls_cons_other _ (by simp [isCall] : isCall Event.caughtBadGateway = false),
          countCalls_cons_other _ (by simp [isCall] : isCall (Event.sleep (2 ^ (attempt + 2))) = false),
          countCalls_nil]
        omega
      · rw [hcons] at hget ⊢
        simp only [List.cons_append, List.nil_append, List.getLast?_cons_cons]
        exact hget

/-- If every attempt from `attempt` to the end fails with a rate limit
or a non-final 502, the loop exhausts all its attempts. -/
theorem retryLoopAux_exhausts {α : Type} (oracle : Nat → Except BackendError α)
    (req : BackendRequest) (N : Nat) :
    ∀ fuel attempt warned, attempt + fuel = N →
      (∀ j, attempt ≤ j → j < N →
        (oracle j = .error .rateLimit
          ∨ (oracle j = .error (.apiError 502) ∧ j ≠ N - 1))) →
      (retryLoopAux oracle req N attempt warned fuel).1 = .exhausted := by
  intro fuel
  induction fuel with
  | zero =>
    intro attempt warned _ _
    rw [retryLoopAux_zero]
  | succ f ih =>
    intro attempt warned hN hall
    have h0 := hall attempt (le_refl attempt) (by omega)
    rcases h0 with hrl | ⟨h502, hnl⟩
    · rw [retryLoopAux_rate oracle req N attempt warned f hrl]
      exact ih (attempt + 1) true (by omega) (fun j h1 h2 => hall j (by omega) h2)
    · rw [retryLoopAux_api_502_retry oracle req N attempt warned f h502 hnl]
      exact ih (attempt + 1) warned (by omega) (fun j h1 h2 => hall j (by omega) h2)

theorem retryLoopAux_head_pos {α : Type} (oracle : Nat → Except BackendError α)
    (req : BackendRequest) (N : Nat) (fuel attempt : Nat) (warned : Bool)
    (hf : fuel ≠ 0) :
    ∃ rest, (retryLoopAux oracle req N attempt warned fuel).2
      = Event.backendCall req :: rest := by
  rcases retryLoopAux_head oracle req N fuel attempt warned with hnil | hcons
  · exfalso
    cases fuel with
    | zero => exact hf rfl
    | succ f =>
      cases h : oracle attempt with
      | ok r =>
        rw [retryLoopAux_ok oracle req N attempt warned f r h] at hnil
        cases hnil
      | error e =>
        cases e with
        | rateLimit =>
          rw [retryLoopAux_rate oracle req N attempt warned f h] at hnil
          cases hnil
        | apiError s =>
          by_cases hs : s = 502
          · subst hs
            by_cases hl : attempt = N - 1
            · rw [retryLoopAux_api_502_last oracle req N attempt warned f h hl] at hnil
              cases hnil
            · rw [retryLoopAux_api_502_retry oracle req N attempt warned f h hl] at hnil
              cases hnil
          · rw [retryLoopAux_api_non502 oracle req N attempt warned f s h hs] at hnil
            cases hnil
  · exact hcons

/-! ### Lemmas about the exhaustion log suffix -/

theorem countCalls_append_logs (tr : List Event) :
    countCalls (tr ++ [Event.fatalLog, Event.doubleCheck]) = countCalls tr := by
  rw [countCalls_append]
  simp [countCalls, List.countP_cons, isCall]

theorem countWarns_append_logs (tr : List Event) :
    countWarns (tr ++ [Event.fatalLog, Event.doubleCheck]) = countWarns tr := by
  rw [countWarns_append]
  simp [countWarns, List.countP_cons, isWarn]

theorem sleepIndexOK_append_logs (base : Nat) (tr : List Event)
    (h : SleepIndexOK base tr) :
    SleepIndexOK base (tr ++ [Event.fatalLog, Event.doubleCheck]) := by
  intro i d hi
  by_cases hlt : i < tr.length
  · rw [List.getElem?_append_left hlt] at hi
    obtain ⟨h1, h2⟩ := h i d hi
    have htake : (tr ++ [Event.fatalLog, Event.doubleCheck]).take i = tr.take i := by
      rw [List.take_append_eq_append_take, show i - tr.length = 0 by omega]
      simp
    rw [htake]
    exact ⟨h1, h2⟩
  · rw [List.getElem?_append_right (by omega)] at hi
    rcases hk : i - tr.length with _ | _ | k2 <;> rw [hk] at hi <;> simp at hi

theorem sleepPreceded_append_logs (tr : List Event) (h : SleepPreceded tr) :
    SleepPreceded (tr ++ [Event.fatalLog, Event.doubleCheck]) := by
  intro i d hi
  by_cases hlt : i < tr.length
  · rw [List.getElem?_append_left hlt] at hi
    obtain ⟨j, e, hj, he, hset⟩ := h i d hi
    refine ⟨j, e, hj, ?_, hset⟩
    rw [List.getElem?_append_left (by omega)]
    exact he
  · rw [List.getElem?_append_right (by omega)] at hi
    rcases hk : i - tr.length with _ | _ | k2 <;> rw [hk] at hi <;> simp at hi

/-! ### Dispatch assembly lemmas -/

theorem create_chat_completion_scan (cfg : Config) (world : World)
    (messages : List Message) (model : Option String) (temperature : Rat)
    (max_tokens : Option Nat) (m : String)
    (hscan : pluginScan messages model temperature max_tokens cfg.plugins = some m) :
    create_chat_completion cfg world messages model temperature max_tokens
      = (.returned m, []) := by
  simp only [create_chat_completion, hscan]

theorem create_chat_completion_no_scan (cfg : Config) (world : World)
    (messages : List Message) (model : Option String) (temperature : Rat)
    (max_tokens : Option Nat)
    (hscan : pluginScan messages model temperature max_tokens cfg.plugins = none) :
    create_chat_completion cfg world messages model temperature max_tokens
      = (if cfg.use_azure then
           finishApi cfg (retryLoop world.apiOracle
             (requestOf cfg messages model temperature max_tokens) 10)
         else if cfg.use_local_model then
           finishLocal cfg (retryLoop world.localOracle
             (requestOf cfg messages model temperature max_tokens) 10)
         else
           finishApi cfg (retryLoop world.apiOracle
             (requestOf cfg messages model temperature max_tokens) 10)) := by
  simp only [create_chat_completion, hscan]

theorem World.apiOracle_error (w : World) (k : Nat) (e : BackendError)
    (h : w.failures k = some e) : w.apiOracle k = .error e := by
  simp [World.apiOracle, h]

theorem World.localOracle_error (w : World) (k : Nat) (e : BackendError)
    (h : w.failures k = some e) : w.localOracle k = .error e := by
  simp [World.localOracle, h]

theorem finishApi_c1 (cfg : Config) (rq : BackendRequest)
    (p : LoopResult ChatResponse × List Event) (out : DispatchOutcome)
    (tr : List Event)
    (hcount : countCalls p.2 ≤ 10) (hidx : SleepIndexOK 0 p.2)
    (hprec : SleepPreceded p.2)
    (hgot : ∀ r, p.1 = .got r → p.2.getLast? = some (Event.backendCall rq))
    (h : finishApi cfg p = (out, tr)) :
    countCalls tr ≤ 10 ∧ SleepIndexOK 0 tr ∧ SleepPreceded tr
      ∧ (∀ s, out = .returned s →
          tr = [] ∨ ∃ r, tr.getLast? = some (Event.backendCall r)) := by
  obtain ⟨res, ltr⟩ := p
  cases res with
  | got r =>
    have hlast := hgot r rfl
    simp only [finishApi] at h
    cases hc : r.choices.head? with
    | some c =>
      rw [hc] at h
      injection h with h1 h2
      subst h1
      subst h2
      exact ⟨hcount, hidx, hprec, fun s _ => Or.inr ⟨rq, hlast⟩⟩
    | none =>
      rw [hc] at h
      injection h with h1 h2
      subst h1
      subst h2
      exact ⟨hcount, hidx, hprec, fun s hs => by cases hs⟩
  | raisedErr e =>
    simp only [finishApi] at h
    injection h with h1 h2
    subst h1
    subst h2
    exact ⟨hcount, hidx, hprec, fun s hs => by cases hs⟩
  | exhausted =>
    simp only [finishApi] at h
    injection h with h1 h2
    subst h1
    subst h2
    refine ⟨by rw [countCalls_append_logs]; exact hcount,
      sleepIndexOK_append_logs 0 ltr hidx,
      sleepPreceded_append_logs ltr hprec, ?_⟩
    intro s hs
    cases hdm : cfg.debug_mode <;> simp [exhaustOutcome, hdm] at hs

theorem finishLocal_c1 (cfg : Config) (rq : BackendRequest)
    (p : LoopResult String × List Event) (out : DispatchOutcome)
    (tr : List Event)
    (hcount : countCalls p.2 ≤ 10) (hidx : SleepIndexOK 0 p.2)
    (hprec : SleepPreceded p.2)
    (hgot : ∀ r, p.1 = .got r → p.2.getLast? = some (Event.backendCall rq))
    (h : finishLocal cfg p = (out, tr)) :
    countCalls tr ≤ 10 ∧ SleepIndexOK 0 tr ∧ SleepPreceded tr
      ∧ (∀ s, out = .returned s →
          tr = [] ∨ ∃ r, tr.getLast? = some (Event.backendCall r)) := by
  obtain ⟨res, ltr⟩ := p
  cases res with
  | got r =>
    have hlast := hgot r rfl
    simp only [finishLocal] at h
    injection h with h1 h2
    subst h1
    subst h2
    exact ⟨hcount, hidx, hprec, fun s _ => Or.inr ⟨rq, hlast⟩⟩
  | raisedErr e =>
    simp only [finishLocal] at h
    injection h with h1 h2
    subst h1
    subst h2
    exact ⟨hcount, hidx, hprec, fun s hs => by cases hs⟩
  | exhausted =>
    simp only [finishLocal] at h
    injection h with h1 h2
    subst h1
    subst h2
    refine ⟨by rw [countCalls_append_logs]; exact hcount,
      sleepIndexOK_append_logs 0 ltr hidx,
      sleepPreceded_append_logs ltr hprec, ?_⟩
    intro s hs
    cases hdm : cfg.debug_mode <;> simp [exhaustOutcome, hdm] at hs

/-! ## Claim theorems -/

/-- C1: Every dispatch of `create_chat_completion` makes at most 10
backend attempts; every backoff sleep recorded in the trace follows at
least one completed attempt and, when `k` attempts (0-indexed `k`-th
attempt was the last one) have completed before it, lasts
`2 ^ ((k + 1) - 1 + 2) = 2 ^ (k + 2)` time units; every sleep
immediately follows an absorbed retryable failure (rate limit or 502)
or the warning such a failure just emitted — never the start of the
dispatch, and never a successful attempt, since a dispatch that returns
text ends its trace on the successful backend call (or has an empty
trace when a plugin short-circuited). -/
theorem c1_retry_policy (cfg : Config) (world : World) (messages : List Message)
    (model : Option String) (temperature : Rat) (max_tokens : Option Nat)
    (out : DispatchOutcome) (tr : List Event)
    (h : create_chat_completion cfg world messages model temperature max_tokens
      = (out, tr)) :
    countCalls tr ≤ 10
      ∧ (∀ i d, tr[i]? = some (Event.sleep d) →
          1 ≤ countCalls (tr.take i)
            ∧ d = 2 ^ ((countCalls (tr.take i) - 1) + 2))
      ∧ SleepPreceded tr
      ∧ (∀ s, out = DispatchOutcome.returned s →
          tr = [] ∨ ∃ r, tr.getLast? = some (Event.backendCall r)) := by
  have main : countCalls tr ≤ 10 ∧ SleepIndexOK 0 tr ∧ SleepPreceded tr
      ∧ (∀ s, out = DispatchOutcome.returned s →
          tr = [] ∨ ∃ r, tr.getLast? = some (Event.backendCall r)) := by
    cases hscan : pluginScan messages model temperature max_tokens cfg.plugins with
    | some m =>
      rw [create_chat_completion_scan cfg world messages model temperature
        max_tokens m hscan] at h
      injection h with h1 h2
      subst h1
      subst h2
      exact ⟨by simp [countCalls_nil], sleepIndexOK_nil 0, sleepPreceded_nil,
        fun s _ => Or.inl rfl⟩
    | none =>
      rw [create_chat_completion_no_scan cfg world messages model temperature
        max_tokens hscan] at h
      by_cases hA : cfg.use_azure
      · rw [if_pos hA] at h
        exact finishApi_c1 cfg _ _ out tr
          (retryLoopAux_countCalls world.apiOracle _ 10 10 0 false)
          (retryLoopAux_sleepIndexOK world.apiOracle _ 10 10 0 false)
          (retryLoopAux_sleepPreceded world.apiOracle _ 10 10 0 false)
          (fun r hr => retryLoopAux_got_getLast world.apiOracle _ 10 10 0 false r hr) h
      · rw [if_neg hA] at h
        by_cases hL : cfg.use_local_model
        · rw [if_pos hL] at h
          exact finishLocal_c1 cfg _ _ out tr
            (retryLoopAux_countCalls world.localOracle _ 10 10 0 false)
            (retryLoopAux_sleepIndexOK world.localOracle _ 10 10 0 false)
            (retryLoopAux_sleepPreceded world.localOracle _ 10 10 0 false)
            (fun r hr =>
              retryLoopAux_got_getLast world.localOracle _ 10 10 0 false r hr) h
        · rw [if_neg hL] at h
          exact finishApi_c1 cfg _ _ out tr
            (retryLoopAux_countCalls world.apiOracle _ 10 10 0 false)
            (retryLoopAux_sleepIndexOK world.apiOracle _ 10 10 0 false)
            (retryLoopAux_sleepPreceded world.apiOracle _ 10 10 0 false)
            (fun r hr =>
              retryLoopAux_got_getLast world.apiOracle _ 10 10 0 false r hr) h
  obtain ⟨hcount, hidx, hprec, hret⟩ := main
  refine ⟨hcount, ?_, hprec, hret⟩
  intro i d hi
  obtain ⟨h1, h2⟩ := hidx i d hi
  rw [Nat.zero_add] at h1 h2
  refine ⟨h1, ?_⟩
  rw [h2]
  congr 1
  omega

theorem finishApi_exhaust (cfg : Config) (p : LoopResult ChatResponse × List Event)
    (hp : p.1 = .exhausted) :
    finishApi cfg p = (exhaustOutcome cfg, p.2 ++ [Event.fatalLog, Event.doubleCheck]) := by
  obtain ⟨res, ltr⟩ := p
  cases res with
  | got r => cases hp
  | raisedErr e => cases hp
  | exhausted => rfl

theorem finishLocal_exhaust (cfg : Config) (p : LoopResult String × List Event)
    (hp : p.1 = .exhausted) :
    finishLocal cfg p = (exhaustOutcome cfg, p.2 ++ [Event.fatalLog, Event.doubleCheck]) := by
  obtain ⟨res, ltr⟩ := p
  cases res with
  | got r => cases hp
  | raisedErr e => cases hp
  | exhausted => rfl

theorem finishApi_raised (cfg : Config) (e : BackendError) (ltr : List Event) :
    finishApi cfg (.raisedErr e, ltr) = (.raised e, ltr) := rfl

theorem finishLocal_raised (cfg : Config) (e : BackendError) (ltr : List Event) :
    finishLocal cfg (.raisedErr e, ltr) = (.raised e, ltr) := rfl

theorem countWarns_finishApi (cfg : Config) (p : LoopResult ChatResponse × List Event) :
    countWarns (finishApi cfg p).2 = countWarns p.2 := by
  obtain ⟨res, ltr⟩ := p
  cases res with
  | got r =>
    simp only [finishApi]
    cases hc : r.choices.head? <;> simp [hc]
  | raisedErr e => rfl
  | exhausted =>
    simp only [finishApi]
    exact countWarns_append_logs ltr

theorem countWarns_finishLocal (cfg : Config) (p : LoopResult String × List Event) :
    countWarns (finishLocal cfg p).2 = countWarns p.2 := by
  obtain ⟨res, ltr⟩ := p
  cases res with
  | got r => rfl
  | raisedErr e => rfl
  | exhausted =>
    simp only [finishLocal]
    exact countWarns_append_logs ltr

/-- Shared helper for C3 and C4: with no plugin short-circuit, retryable
failures on the attempts before `k`, and an `APIError` at attempt `k`
that is non-502 or on the last attempt, the dispatcher propagates that
error after `k + 1` calls, ending its trace on the failing call. -/
theorem dispatch_raises (cfg : Config) (world : World) (messages : List Message)
    (model : Option String) (temperature : Rat) (max_tokens : Option Nat)
    (k s : Nat)
    (hscan : pluginScan messages model temperature max_tokens cfg.plugins = none)
    (hk : k < 10)
    (hpre : ∀ j, j < k → (world.failures j = some BackendError.rateLimit
      ∨ world.failures j = some (BackendError.apiError 502)))
    (hfail : world.failures k = some (BackendError.apiError s))
    (hdisj : s ≠ 502 ∨ k = 9) :
    ∃ tr, create_chat_completion cfg world messages model temperature max_tokens
        = (DispatchOutcome.raised (BackendError.apiError s), tr)
      ∧ countCalls tr = k + 1
      ∧ tr.getLast? = some (Event.backendCall
          (requestOf cfg messages model temperature max_tokens)) := by
  rw [create_chat_completion_no_scan cfg world messages model temperature
    max_tokens hscan]
  have hApre : ∀ j, 0 ≤ j → j < 0 + k →
      (world.apiOracle j = .error .rateLimit
        ∨ world.apiOracle j = .error (.apiError 502)) := by
    intro j _ hj
    rcases hpre j (by omega) with hp | hp
    · exact Or.inl (World.apiOracle_error world j _ hp)
    · exact Or.inr (World.apiOracle_error world j _ hp)
  have hLpre : ∀ j, 0 ≤ j → j < 0 + k →
      (world.localOracle j = .error .rateLimit
        ∨ world.localOracle j = .error (.apiError 502)) := by
    intro j _ hj
    rcases hpre j (by omega) with hp | hp
    · exact Or.inl (World.localOracle_error world j _ hp)
    · exact Or.inr (World.localOracle_error world j _ hp)
  have hAfail : world.apiOracle (0 + k) = .error (.apiError s) := by
    rw [Nat.zero_add]
    exact World.apiOracle_error world k _ hfail
  have hLfail : world.localOracle (0 + k) = .error (.apiError s) := by
    rw [Nat.zero_add]
    exact World.localOracle_error world k _ hfail
  have hdisj' : s ≠ 502 ∨ 0 + k = 10 - 1 := by
    rcases hdisj with hh | hh
    · exact Or.inl hh
    · exact Or.inr (by omega)
  by_cases hA : cfg.use_azure
  · rw [if_pos hA]
    obtain ⟨tr', heq, hcount, hlast⟩ := retryLoopAux_raises world.apiOracle
      (requestOf cfg messages model temperature max_tokens) 10 s k 10 0 false
      (by omega) (by omega) hApre hAfail hdisj'
    refine ⟨tr', ?_, hcount, hlast⟩
    simp only [retryLoop]
    rw [heq]
    rfl
  · rw [if_neg hA]
    by_cases hL : cfg.use_local_model
    · rw [if_pos hL]
      obtain ⟨tr', heq, hcount, hlast⟩ := retryLoopAux_raises world.localOracle
        (requestOf cfg messages model temperature max_tokens) 10 s k 10 0 false
        (by omega) (by omega) hLpre hLfail hdisj'
      refine ⟨tr', ?_, hcount, hlast⟩
      simp only [retryLoop]
      rw [heq]
      rfl
    · rw [if_neg hL]
      obtain ⟨tr', heq, hcount, hlast⟩ := retryLoopAux_raises world.apiOracle
        (requestOf cfg messages model temperature max_tokens) 10 s k 10 0 false
        (by omega) (by omega) hApre hAfail hdisj'
      refine ⟨tr', ?_, hcount, hlast⟩
      simp only [retryLoop]
      rw [heq]
      rfl

/-- C2 (amended): if some registered plugin's `can_handle_chat_completion`
predicate returns true and its `handle_chat_completion` yields a
non-`None` result — possibly the empty string — then the result of the
first such plugin in registration order is returned immediately, with no
backend call and no sleep (the event trace is empty); a plugin whose
handler yields `None` falls through to the next plugin. -/
theorem c2_plugin_short_circuit (cfg : Config) (world : World)
    (messages : List Message) (model : Option String) (temperature : Rat)
    (max_tokens : Option Nat) (m : String)
    (h : firstOptInResult messages model temperature max_tokens cfg.plugins
      = some m) :
    create_chat_completion cfg world messages model temperature max_tokens
      = (DispatchOutcome.returned m, []) :=
  create_chat_completion_scan cfg world messages model temperature max_tokens m
    (by rw [pluginScan_eq_firstOptInResult]; exact h)

/-- C3: a backend failure with an HTTP status other than 502 (and which
is not a rate limit) propagates to the caller on whatever attempt it
occurs: the dispatch raises exactly that error after `k + 1` backend
calls (no further retry attempts), and the trace ends on the failing
call, so no sleep follows it. -/
theorem c3_non502_propagates (cfg : Config) (world : World)
    (messages : List Message) (model : Option String) (temperature : Rat)
    (max_tokens : Option Nat) (k s : Nat)
    (hscan : pluginScan messages model temperature max_tokens cfg.plugins = none)
    (hk : k < 10)
    (hpre : ∀ j, j < k → (world.failures j = some BackendError.rateLimit
      ∨ world.failures j = some (BackendError.apiError 502)))
    (hfail : world.failures k = some (BackendError.apiError s))
    (hs : s ≠ 502) :
    ∃ tr, create_chat_completion cfg world messages model temperature max_tokens
        = (DispatchOutcome.raised (BackendError.apiError s), tr)
      ∧ countCalls tr = k + 1
      ∧ tr.getLast? = some (Event.backendCall
          (requestOf cfg messages model temperature max_tokens)) :=
  dispatch_raises cfg world messages model temperature max_tokens k s hscan hk
    hpre hfail (Or.inl hs)

/-- C4: a gateway-502 failure on the final allowed attempt (attempt
index 9 of 10) propagates to the caller as a raised failure — all 10
attempts having been consumed — rather than as a silent empty or
missing result. -/
theorem c4_502_last_attempt_propagates (cfg : Config) (world : World)
    (messages : List Message) (model : Option String) (temperature : Rat)
    (max_tokens : Option Nat)
    (hscan : pluginScan messages model temperature max_tokens cfg.plugins = none)
    (hpre : ∀ j, j < 9 → (world.failures j = some BackendError.rateLimit
      ∨ world.failures j = some (BackendError.apiError 502)))
    (hfail : world.failures 9 = some (BackendError.apiError 502)) :
    ∃ tr, create_chat_completion cfg world messages model temperature max_tokens
        = (DispatchOutcome.raised (BackendError.apiError 502), tr)
      ∧ countCalls tr = 10
      ∧ (∀ s, DispatchOutcome.raised (BackendError.apiError 502)
          ≠ DispatchOutcome.returned s) := by
  obtain ⟨tr, heq, hcount, _⟩ := dispatch_raises cfg world messages model
    temperature max_tokens 9 502 hscan (by omega) hpre hfail (Or.inr rfl)
  exact ⟨tr, heq, hcount, fun s hs => by cases hs⟩

/-- C5: when all 10 attempts are consumed without obtaining a response
(every attempt fails retryably, the last with a rate limit), the
dispatcher writes the fatal operator log (`typewriter_log` followed by
`double_check`) as its final trace events, and then raises
`RuntimeError` when `debug_mode` is set or exits with status 1
otherwise; it never returns a value. -/
theorem c5_exhaustion (cfg : Config) (world : World) (messages : List Message)
    (model : Option String) (temperature : Rat) (max_tokens : Option Nat)
    (out : DispatchOutcome) (tr : List Event)
    (hscan : pluginScan messages model temperature max_tokens cfg.plugins = none)
    (hfail : ∀ j, j < 10 → (world.failures j = some BackendError.rateLimit
      ∨ (world.failures j = some (BackendError.apiError 502) ∧ j ≠ 9)))
    (h : create_chat_completion cfg world messages model temperature max_tokens
      = (out, tr)) :
    out = (if cfg.debug_mode then DispatchOutcome.raisedRuntimeError
      else DispatchOutcome.exited 1)
      ∧ (∃ pre, tr = pre ++ [Event.fatalLog, Event.doubleCheck])
      ∧ (∀ s, out ≠ DispatchOutcome.returned s) := by
  rw [create_chat_completion_no_scan cfg world messages model temperature
    max_tokens hscan] at h
  have hAfail : ∀ j, 0 ≤ j → j < 10 →
      (world.apiOracle j = .error .rateLimit
        ∨ (world.apiOracle j = .error (.apiError 502) ∧ j ≠ 10 - 1)) := by
    intro j _ hj
    rcases hfail j hj with hp | ⟨hp, hne⟩
    · exact Or.inl (World.apiOracle_error world j _ hp)
    · exact Or.inr ⟨World.apiOracle_error world j _ hp, by omega⟩
  have hLfail : ∀ j, 0 ≤ j → j < 10 →
      (world.localOracle j = .error .rateLimit
        ∨ (world.localOracle j = .error (.apiError 502) ∧ j ≠ 10 - 1)) := by
    intro j _ hj
    rcases hfail j hj with hp | ⟨hp, hne⟩
    · exact Or.inl (World.localOracle_error world j _ hp)
    · exact Or.inr ⟨World.localOracle_error world j _ hp, by omega⟩
  have hmain : out = exhaustOutcome cfg
      ∧ ∃ pre, tr = pre ++ [Event.fatalLog, Event.doubleCheck] := by
    by_cases hA : cfg.use_azure
    · rw [if_pos hA] at h
      have hex := retryLoopAux_exhausts world.apiOracle
        (requestOf cfg messages model temperature max_tokens) 10 10 0 false
        (by omega) hAfail
      simp only [retryLoop] at h
      rw [finishApi_exhaust cfg _ hex] at h
      injection h with h1 h2
      exact ⟨h1.symm, _, h2.symm⟩
    · rw [if_neg hA] at h
      by_cases hL : cfg.use_local_model
      · rw [if_pos hL] at h
        have hex := retryLoopAux_exhausts world.localOracle
          (requestOf cfg messages model temperature max_tokens) 10 10 0 false
          (by omega) hLfail
        simp only [retryLoop] at h
        rw [finishLocal_exhaust cfg _ hex] at h
        injection h with h1 h2
        exact ⟨h1.symm, _, h2.symm⟩
      · rw [if_neg hL] at h
        have hex := retryLoopAux_exhausts world.apiOracle
          (requestOf cfg messages model temperature max_tokens) 10 10 0 false
          (by omega) hAfail
        simp only [retryLoop] at h
        rw [finishApi_exhaust cfg _ hex] at h
        injection h with h1 h2
        exact ⟨h1.symm, _, h2.symm⟩
  obtain ⟨hout, hpre'⟩ := hmain
  subst hout
  refine ⟨rfl, hpre', ?_⟩
  intro s hs
  cases hdm : cfg.debug_mode <;> simp [exhaustOutcome, hdm] at hs

/-- C6: within a single dispatch, the rate-limit billing warning is
emitted at most once, even when rate-limit failures recur on several
attempts: the `warned_user` flag is initialized per call. -/
theorem c6_warning_once (cfg : Config) (world : World) (messages : List Message)
    (model : Option String) (temperature : Rat) (max_tokens : Option Nat) :
    countWarns
      (create_chat_completion cfg world messages model temperature max_tokens).2
      ≤ 1 := by
  cases hscan : pluginScan messages model temperature max_tokens cfg.plugins with
  | some m =>
    rw [create_chat_completion_scan cfg world messages model temperature
      max_tokens m hscan]
    simp [countWarns_nil]
  | none =>
    rw [create_chat_completion_no_scan cfg world messages model temperature
      max_tokens hscan]
    have hA := retryLoopAux_countWarns world.apiOracle
      (requestOf cfg messages model temperature max_tokens) 10 10 0 false
    have hL := retryLoopAux_countWarns world.localOracle
      (requestOf cfg messages model temperature max_tokens) 10 10 0 false
    rw [if_neg (by simp)] at hA hL
    by_cases hAz : cfg.use_azure
    · rw [if_pos hAz, countWarns_finishApi]
      exact hA
    · rw [if_neg hAz]
      by_cases hLo : cfg.use_local_model
      · rw [if_pos hLo, countWarns_finishLocal]
        exact hL
      · rw [if_neg hLo, countWarns_finishApi]
        exact hA

/-! ### The embedding retry loop -/

theorem embedLoopAux_zero (oracle : Nat → Except BackendError Embedding)
    (text : String) (N attempt : Nat) :
    embedLoopAux oracle text N attempt 0 = (.returnedNone, []) := rfl

theorem embedLoopAux_ok (oracle : Nat → Except BackendError Embedding)
    (text : String) (N attempt fuel : Nat) (v : Embedding)
    (h : oracle attempt = .ok v) :
    embedLoopAux oracle text N attempt (fuel + 1)
      = (.returnedVec v, [.embedCall [text] "text-embedding-ada-002"]) := by
  simp only [embedLoopAux, h]

theorem embedLoopAux_rate (oracle : Nat → Except BackendError Embedding)
    (text : String) (N attempt fuel : Nat)
    (h : oracle attempt = .error .rateLimit) :
    embedLoopAux oracle text N attempt (fuel + 1)
      = ((embedLoopAux oracle text N (attempt + 1) fuel).1,
         [Event.embedCall [text] "text-embedding-ada-002",
          Event.sleep (2 ^ (attempt + 2))]
           ++ (embedLoopAux oracle text N (attempt + 1) fuel).2) := by
  simp only [embedLoopAux, h]

theorem embedLoopAux_api_non502 (oracle : Nat → Except BackendError Embedding)
    (text : String) (N attempt fuel : Nat) (s : Nat)
    (h : oracle attempt = .error (.apiError s)) (hs : s ≠ 502) :
    embedLoopAux oracle text N attempt (fuel + 1)
      = (.raisedE (.apiError s), [.embedCall [text] "text-embedding-ada-002"]) := by
  simp only [embedLoopAux, h]
  rw [if_pos hs]

theorem embedLoopAux_api_502_last (oracle : Nat → Except BackendError Embedding)
    (text : String) (N attempt fuel : Nat)
    (h : oracle attempt = .error (.apiError 502)) (hl : attempt = N - 1) :
    embedLoopAux oracle text N attempt (fuel + 1)
      = (.raisedE (.apiError 502), [.embedCall [text] "text-embedding-ada-002"]) := by
  subst hl
  simp only [embedLoopAux, h]
  simp

theorem embedLoopAux_api_502_retry (oracle : Nat → Except BackendError Embedding)
    (text : String) (N attempt fuel : Nat)
    (h : oracle attempt = .error (.apiError 502)) (hl : attempt ≠ N - 1) :
    embedLoopAux oracle text N attempt (fuel + 1)
      = ((embedLoopAux oracle text N (attempt + 1) fuel).1,
         [Event.embedCall [text] "text-embedding-ada-002",
          Event.sleep (2 ^ (attempt + 2))]
           ++ (embedLoopAux oracle text N (attempt + 1) fuel).2) := by
  simp only [embedLoopAux, h, hl]
  simp

theorem embedLoopAux_calls (oracle : Nat → Except BackendError Embedding)
    (text : String) (N : Nat) :
    ∀ fuel attempt (l : List String) (m : String),
      Event.embedCall l m ∈ (embedLoopAux oracle text N attempt fuel).2 →
        l = [text] ∧ m = "text-embedding-ada-002" := by
  intro fuel
  induction fuel with
  | zero =>
    intro attempt l m hm
    rw [embedLoopAux_zero] at hm
    simp at hm
  | succ f ih =>
    intro attempt l m hm
    cases h : oracle attempt with
    | ok v =>
      rw [embedLoopAux_ok oracle text N attempt f v h] at hm
      simp at hm
      exact hm
    | error e =>
      cases e with
      | rateLimit =>
        rw [embedLoopAux_rate oracle text N attempt f h] at hm
        simp at hm
        rcases hm with hm | hm
        · exact hm
        · exact ih (attempt + 1) l m hm
      | apiError s =>
        by_cases hs : s = 502
        · subst hs
          by_cases hl : attempt = N - 1
          · rw [embedLoopAux_api_502_last oracle text N attempt f h hl] at hm
            simp at hm
            exact hm
          · rw [embedLoopAux_api_502_retry oracle text N attempt f h hl] at hm
            simp at hm
            rcases hm with hm | hm
            · exact hm
            · exact ih (attempt + 1) l m hm
        · rw [embedLoopAux_api_non502 oracle text N attempt f s h hs] at hm
          simp at hm
          exact hm

theorem embedLoopAux_countEmbed (oracle : Nat → Except BackendError Embedding)
    (text : String) (N : Nat) :
    ∀ fuel attempt,
      countEmbedCalls (embedLoopAux oracle text N attempt fuel).2 ≤ fuel := by
  intro fuel
  induction fuel with
  | zero =>
    intro attempt
    rw [embedLoopAux_zero]
    simp [countEmbedCalls]
  | succ f ih =>
    intro attempt
    cases h : oracle attempt with
    | ok v =>
      rw [embedLoopAux_ok oracle text N attempt f v h]
      simp [countEmbedCalls, List.countP_cons, isEmbedCall]
    | error e =>
      cases e with
      | rateLimit =>
        rw [embedLoopAux_rate oracle text N attempt f h]
        have := ih (attempt + 1)
        simp only [countEmbedCalls, List.countP_append, List.countP_cons] at *
        simp [isEmbedCall]
        omega
      | apiError s =>
        by_cases hs : s = 502
        · subst hs
          by_cases hl : attempt = N - 1
          · rw [embedLoopAux_api_502_last oracle text N attempt f h hl]
            simp [countEmbedCalls, List.countP_cons, isEmbedCall]
          · rw [embedLoopAux_api_502_retry oracle text N attempt f h hl]
            have := ih (attempt + 1)
            simp only [countEmbedCalls, List.countP_append, List.countP_cons] at *
            simp [isEmbedCall]
            omega
        · rw [embedLoopAux_api_non502 oracle text N attempt f s h hs]
          simp [countEmbedCalls, List.countP_cons, isEmbedCall]

theorem embedLoopAux_all_rate (oracle : Nat → Except BackendError Embedding)
    (text : String) (N : Nat) :
    ∀ fuel attempt,
      (∀ j, attempt ≤ j → j < attempt + fuel → oracle j = .error .rateLimit) →
      (embedLoopAux oracle text N attempt fuel).1 = .returnedNone := by
  intro fuel
  induction fuel with
  | zero =>
    intro attempt _
    rw [embedLoopAux_zero]
  | succ f ih =>
    intro attempt hall
    have h0 := hall attempt (le_refl attempt) (by omega)
    rw [embedLoopAux_rate oracle text N attempt f h0]
    exact ih (attempt + 1) (fun j h1 h2 => hall j (by omega) (by omega))

theorem embedLoopAux_no_fatal (oracle : Nat → Except BackendError Embedding)
    (text : String) (N : Nat) :
    ∀ fuel attempt, Event.fatalLog ∉ (embedLoopAux oracle text N attempt fuel).2 := by
  intro fuel
  induction fuel with
  | zero =>
    intro attempt
    rw [embedLoopAux_zero]
    simp
  | succ f ih =>
    intro attempt
    cases h : oracle attempt with
    | ok v =>
      rw [embedLoopAux_ok oracle text N attempt f v h]
      simp
    | error e =>
      cases e with
      | rateLimit =>
        rw [embedLoopAux_rate oracle text N attempt f h]
        simp
        exact ih (attempt + 1)
      | apiError s =>
        by_cases hs : s = 502
        · subst hs
          by_cases hl : attempt = N - 1
          · rw [embedLoopAux_api_502_last oracle text N attempt f h hl]
            simp
          · rw [embedLoopAux_api_502_retry oracle text N attempt f h hl]
            simp
            exact ih (attempt + 1)
        · rw [embedLoopAux_api_non502 oracle text N attempt f s h hs]
          simp

theorem embedLoopAux_raise_inv (oracle : Nat → Except BackendError Embedding)
    (text : String) :
    ∀ fuel attempt (e : BackendError) (tr : List Event), attempt + fuel = 10 →
      embedLoopAux oracle text 10 attempt fuel = (.raisedE e, tr) →
      ∃ s, e = BackendError.apiError s
        ∧ (s ≠ 502 ∨ attempt + countEmbedCalls tr = 10) := by
  intro fuel
  induction fuel with
  | zero =>
    intro attempt e tr _ h
    rw [embedLoopAux_zero] at h
    cases h
  | succ f ih =>
    intro attempt e tr hN h
    cases ho : oracle attempt with
    | ok v =>
      rw [embedLoopAux_ok oracle text 10 attempt f v ho] at h
      cases h
    | error e2 =>
      cases e2 with
      | rateLimit =>
        rw [embedLoopAux_rate oracle text 10 attempt f ho] at h
        injection h with h1 h2
        obtain ⟨s, hse, hdisj⟩ := ih (attempt + 1) e
          (embedLoopAux oracle text 10 (attempt + 1) f).2 (by omega)
          (by rw [← h1])
        refine ⟨s, hse, ?_⟩
        rcases hdisj with hd | hd
        · exact Or.inl hd
        · right
          rw [← h2]
          simp only [countEmbedCalls, List.countP_append, List.countP_cons]
          simp [isEmbedCall]
          simp only [countEmbedCalls] at hd
          omega
      | apiError s =>
        by_cases hs : s = 502
        · subst hs
          by_cases hl : attempt = 10 - 1
          · rw [embedLoopAux_api_502_last oracle text 10 attempt f ho hl] at h
            injection h with h1 h2
            have he : e = BackendError.apiError 502 := by
              injection h1 with h1'
              exact h1'.symm
            refine ⟨502, he, Or.inr ?_⟩
            rw [← h2]
            simp only [countEmbedCalls, List.countP_cons, List.countP_nil]
            simp [isEmbedCall]
            omega
          · rw [embedLoopAux_api_502_retry oracle text 10 attempt f ho hl] at h
            injection h with h1 h2
            obtain ⟨s', hse, hdisj⟩ := ih (attempt + 1) e
              (embedLoopAux oracle text 10 (attempt + 1) f).2 (by omega)
              (by rw [← h1])
            refine ⟨s', hse, ?_⟩
            rcases hdisj with hd | hd
            · exact Or.inl hd
            · right
              rw [← h2]
              simp only [countEmbedCalls, List.countP_append, List.countP_cons]
              simp [isEmbedCall]
              simp only [countEmbedCalls] at hd
              omega
        · rw [embedLoopAux_api_non502 oracle text 10 attempt f s ho hs] at h
          injection h with h1 h2
          have he : e = BackendError.apiError s := by
            injection h1 with h1'
            exact h1'.symm
          exact ⟨s, he, Or.inl hs⟩

/-- Skipping a block of absorbed retryable failures: if the `m` attempts
starting at `attempt` fail with a rate limit or a non-final 502, the
embedding loop absorbs them (one call and one sleep each) and continues
at attempt `attempt + m` with the remaining fuel. -/
theorem embedLoopAux_skip (oracle : Nat → Except BackendError Embedding)
    (text : String) :
    ∀ m fuel attempt, attempt + fuel = 10 → m ≤ fuel →
      (∀ j, attempt ≤ j → j < attempt + m →
        (oracle j = .error .rateLimit
          ∨ (oracle j = .error (.apiError 502) ∧ j ≠ 9))) →
      ∃ pre, embedLoopAux oracle text 10 attempt fuel
          = ((embedLoopAux oracle text 10 (attempt + m) (fuel - m)).1,
             pre ++ (embedLoopAux oracle text 10 (attempt + m) (fuel - m)).2)
        ∧ countEmbedCalls pre = m := by
  intro m
  induction m with
  | zero =>
    intro fuel attempt hN hm _
    refine ⟨[], ?_, rfl⟩
    rw [Nat.add_zero, Nat.sub_zero, List.nil_append]
  | succ m ih =>
    intro fuel attempt hN hm hpre
    obtain ⟨f, rfl⟩ : ∃ f, fuel = f + 1 := ⟨fuel - 1, by omega⟩
    have h0 := hpre attempt (le_refl attempt) (by omega)
    obtain ⟨pre', heq, hcount⟩ := ih f (attempt + 1) (by omega) (by omega)
      (fun j h1 h2 => hpre j (by omega) (by omega))
    rw [show attempt + 1 + m = attempt + (m + 1) from by omega,
      show f - m = f + 1 - (m + 1) from by omega] at heq
    have hcount' : countEmbedCalls ([Event.embedCall [text] "text-embedding-ada-002",
        Event.sleep (2 ^ (attempt + 2))] ++ pre') = m + 1 := by
      simp only [countEmbedCalls, List.countP_append, List.countP_cons] at *
      simp [isEmbedCall]
      omega
    rcases h0 with hrl | ⟨h502, hne9⟩
    · refine ⟨[Event.embedCall [text] "text-embedding-ada-002",
        Event.sleep (2 ^ (attempt + 2))] ++ pre', ?_, hcount'⟩
      rw [embedLoopAux_rate oracle text 10 attempt f hrl, heq]
      simp [List.append_assoc]
    · refine ⟨[Event.embedCall [text] "text-embedding-ada-002",
        Event.sleep (2 ^ (attempt + 2))] ++ pre', ?_, hcount'⟩
      rw [embedLoopAux_api_502_retry oracle text 10 attempt f h502
        (by omega : attempt ≠ 10 - 1), heq]
      simp [List.append_assoc]

theorem stringJoin_cons (a : String) (l : List String) :
    String.join (a :: l) = a ++ String.join l := by
  rw [String.join_eq, String.join_eq]
  apply String.ext
  simp [String.append]

theorem get_message_string_nil : get_message_string [] = "" := rfl

theorem get_message_string_cons (m : Message) (ms : List Message) :
    get_message_string (m :: ms)
      = "<|start|>" ++ m.role ++ "\n" ++ m.content ++ "<|end|>\n"
        ++ get_message_string ms := by
  simp only [get_message_string, List.map_cons, stringJoin_cons]

theorem finishLocal_trace (cfg : Config) (p : LoopResult String × List Event) :
    (finishLocal cfg p).2 = p.2
      ∨ (finishLocal cfg p).2 = p.2 ++ [Event.fatalLog, Event.doubleCheck] := by
  obtain ⟨res, ltr⟩ := p
  cases res with
  | got r => exact Or.inl rfl
  | raisedErr e => exact Or.inl rfl
  | exhausted => exact Or.inr rfl

/-- C2 is falsified by the code at a concrete run: with two registered
plugins that both opt in, the first handler yielding `Some ""` (empty
text, not `None`) and the second yielding `"hello"`, the dispatch
returns `""` — the opting-in plugin that yields non-empty text does not
win, because the code tests `message is not None`, not non-emptiness. -/
theorem c2_counterexample :
    (cfgTwoPlugins.plugins.map
        (fun p => p.can_handle_chat_completion msgsEx none 1 none)) = [true, true]
    ∧ (cfgTwoPlugins.plugins.map
        (fun p => p.handle_chat_completion msgsEx none 1 none))
        = [some "", some "hello"]
    ∧ create_chat_completion cfgTwoPlugins worldOK msgsEx none 1 none
        = (DispatchOutcome.returned "", [])
    ∧ ("" : String) ≠ "hello" := by
  refine ⟨rfl, rfl, rfl, by decide⟩

/-- C7 is falsified by the code at a concrete input: newline
normalization and the retry policy never apply to the same embedding
call.  `get_ada_embedding` (which normalizes) makes exactly one backend
call and propagates a rate-limit failure instead of retrying it, while
`create_embedding_with_ada` (which retries) submits the text with its
newline intact. -/
theorem c7_counterexample :
    (get_ada_embedding embedOracleAllRate "a\nb").1
        = EmbedOutcome.raisedE BackendError.rateLimit
    ∧ countEmbedCalls (get_ada_embedding embedOracleAllRate "a\nb").2 = 1
    ∧ (create_embedding_with_ada embedOracleOK "a\nb").2
        = [Event.embedCall ["a\nb"] "text-embedding-ada-002"] := by
  refine ⟨rfl, rfl, rfl⟩

/-- C7 (amended): the module splits the two behaviors over two
operations.  `get_ada_embedding` replaces every newline with a space
and issues exactly one embedding request, whose outcome — success or
any failure, rate limit included — it passes through without retrying.
`create_embedding_with_ada` submits the text unmodified under the retry
policy: at most 10 attempts; a rate-limited attempt is retried after
the backoff sleep (shown on a rate-limit then success oracle); a
non-final 502 is likewise absorbed and retried after the
`2 ^ (k + 2)` backoff sleep, the retry being the next backend call;
and any other failure status propagates immediately, after exactly the
failing call, with no sleep after it. -/
theorem c7_embedding_split :
    (∀ (oracle : Nat → Except BackendError Embedding) (text : String),
      get_ada_embedding oracle text
        = (embedOutcomeOf (oracle 0),
           [Event.embedCall [text.replace "\n" " "] "text-embedding-ada-002"]))
    ∧ (∀ (oracle : Nat → Except BackendError Embedding) (text : String)
        (l : List String) (m : String),
        Event.embedCall l m ∈ (create_embedding_with_ada oracle text).2 →
          l = [text] ∧ m = "text-embedding-ada-002")
    ∧ (∀ (oracle : Nat → Except BackendError Embedding) (text : String),
        countEmbedCalls (create_embedding_with_ada oracle text).2 ≤ 10)
    ∧ (∀ (oracle : Nat → Except BackendError Embedding) (text : String)
        (v : Embedding), oracle 0 = .error .rateLimit → oracle 1 = .ok v →
        create_embedding_with_ada oracle text
          = (.returnedVec v,
             [Event.embedCall [text] "text-embedding-ada-002", Event.sleep 4,
              Event.embedCall [text] "text-embedding-ada-002"]))
    ∧ (∀ (oracle : Nat → Except BackendError Embedding) (text : String)
        (k : Nat) (v : Embedding), k < 9 →
        (∀ j, j < k → (oracle j = .error .rateLimit
          ∨ oracle j = .error (.apiError 502))) →
        oracle k = .error (.apiError 502) → oracle (k + 1) = .ok v →
        ∃ pre, create_embedding_with_ada oracle text
            = (.returnedVec v,
               pre ++ [Event.embedCall [text] "text-embedding-ada-002",
                Event.sleep (2 ^ (k + 2)),
                Event.embedCall [text] "text-embedding-ada-002"])
          ∧ countEmbedCalls pre = k)
    ∧ (∀ (oracle : Nat → Except BackendError Embedding) (text : String)
        (k s : Nat), k < 10 →
        (∀ j, j < k → (oracle j = .error .rateLimit
          ∨ oracle j = .error (.apiError 502))) →
        oracle k = .error (.apiError s) → s ≠ 502 →
        ∃ tr, create_embedding_with_ada oracle text
            = (.raisedE (.apiError s), tr)
          ∧ countEmbedCalls tr = k + 1
          ∧ tr.getLast? = some (Event.embedCall [text] "text-embedding-ada-002")) := by
  refine ⟨?_, ?_, ?_, ?_, ?_, ?_⟩
  · intro oracle text
    cases ho : oracle 0 <;> simp [get_ada_embedding, ho, embedOutcomeOf]
  · intro oracle text l m hm
    exact embedLoopAux_calls oracle text 10 10 0 l m hm
  · intro oracle text
    exact embedLoopAux_countEmbed oracle text 10 10 0
  · intro oracle text v h0 h1
    show embedLoopAux oracle text 10 0 (9 + 1) = _
    rw [embedLoopAux_rate oracle text 10 0 9 h0]
    have h9 : embedLoopAux oracle text 10 (0 + 1) 9
        = embedLoopAux oracle text 10 (0 + 1) (8 + 1) := rfl
    have h1' : oracle (0 + 1) = .ok v := h1
    rw [h9, embedLoopAux_ok oracle text 10 (0 + 1) 8 v h1']
    simp
  · intro oracle text k v hk hpre hfail hok
    obtain ⟨pre, heq, hcount⟩ := embedLoopAux_skip oracle text k 10 0
      (by omega) (by omega)
      (fun j h1 h2 => by
        rcases hpre j (by omega) with hp | hp
        · exact Or.inl hp
        · exact Or.inr ⟨hp, by omega⟩)
    rw [Nat.zero_add] at heq
    obtain ⟨f2, hf2⟩ : ∃ f2, 10 - k = f2 + 1 + 1 := ⟨10 - k - 2, by omega⟩
    have hstep1 := embedLoopAux_api_502_retry oracle text 10 k (f2 + 1) hfail
      (by omega : k ≠ 10 - 1)
    have hstep2 := embedLoopAux_ok oracle text 10 (k + 1) f2 v hok
    refine ⟨pre, ?_, hcount⟩
    show embedLoopAux oracle text 10 0 10 = _
    rw [heq, hf2, hstep1, hstep2]
    simp
  · intro oracle text k s hk hpre hfail hs
    obtain ⟨pre, heq, hcount⟩ := embedLoopAux_skip oracle text k 10 0
      (by omega) (by omega)
      (fun j h1 h2 => by
        rcases hpre j (by omega) with hp | hp
        · exact Or.inl hp
        · exact Or.inr ⟨hp, by omega⟩)
    rw [Nat.zero_add] at heq
    obtain ⟨f, hf⟩ : ∃ f, 10 - k = f + 1 := ⟨10 - k - 1, by omega⟩
    have hstep := embedLoopAux_api_non502 oracle text 10 k f s hfail hs
    refine ⟨pre ++ [Event.embedCall [text] "text-embedding-ada-002"], ?_, ?_, ?_⟩
    · show embedLoopAux oracle text 10 0 10 = _
      rw [heq, hf, hstep]
    · simp only [countEmbedCalls, List.countP_append, List.countP_cons,
        List.countP_nil] at *
      simp [isEmbedCall]
      omega
    · rw [List.getLast?_append_of_ne_nil]
      · rfl
      · simp

/-- C8: `call_ai_function` builds exactly the two-turn conversation —
a system turn embedding the description and the function signature, and
a user turn joining the arguments with `", "`, a `None` argument
rendering as the literal `"None"` — resolves the model default, and
issues exactly one dispatch with temperature fixed at 0, whatever the
ambient default temperature in the configuration; in particular the
example arguments `[2, None]` produce the user content `"2, None"`. -/
theorem c8_call_ai_function :
    (∀ (cfg : Config) (world : World) (function : String) (args : List PyVal)
        (description : String) (model : Option String),
      call_ai_function cfg world function args description model
        = create_chat_completion cfg world
            [⟨"system", "You are now the following python function: ```# "
                ++ description ++ "\n" ++ function
                ++ "```\n\nOnly respond with your `return` value."⟩,
             ⟨"user", String.intercalate ", " (args.map argToStr)⟩]
            (some (model.getD cfg.smart_llm_model)) 0 none)
    ∧ String.intercalate ", " ([PyVal.vInt 2, PyVal.vNone].map argToStr) = "2, None"
    ∧ (ai_function_messages "add(a,b)" [PyVal.vInt 2, PyVal.vNone]
        "adds two numbers")[1]? = some ⟨"user", "2, None"⟩ := by
  refine ⟨?_, rfl, rfl⟩
  intro cfg world function args description model
  cases model <;> rfl

/-- C9: with the local backend selected (and no plugin short-circuit),
every backend attempt of the dispatch hands the local model the
flattened transcript `get_message_string messages` together with
generation kwargs using token id 50256 as both end-of-sequence and
padding token, and at least one such attempt occurs; and
`get_message_string` is exactly the in-order concatenation of
`"<|start|>" ++ role ++ "\n" ++ content ++ "<|end|>" ++ "\n"` per turn. -/
theorem c9_local_transcript (cfg : Config) (world : World)
    (messages : List Message) (model : Option String) (temperature : Rat)
    (max_tokens : Option Nat)
    (hA : cfg.use_azure = false) (hL : cfg.use_local_model = true)
    (hscan : pluginScan messages model temperature max_tokens cfg.plugins = none) :
    (∃ rest,
      (create_chat_completion cfg world messages model temperature max_tokens).2
        = Event.backendCall (BackendRequest.localReq model
            (get_message_string messages) ⟨max_tokens, 50256, 50256⟩) :: rest)
    ∧ (∀ r, Event.backendCall r ∈
        (create_chat_completion cfg world messages model temperature max_tokens).2 →
          r = BackendRequest.localReq model (get_message_string messages)
            ⟨max_tokens, 50256, 50256⟩)
    ∧ get_message_string [] = ""
    ∧ (∀ m ms, get_message_string (m :: ms)
        = "<|start|>" ++ m.role ++ "\n" ++ m.content ++ "<|end|>" ++ "\n"
          ++ get_message_string ms) := by
  have hreq : requestOf cfg messages model temperature max_tokens
      = BackendRequest.localReq model (get_message_string messages)
          ⟨max_tokens, 50256, 50256⟩ := by
    simp [requestOf, hA, hL]
  have hdisp : create_chat_completion cfg world messages model temperature max_tokens
      = finishLocal cfg (retryLoop world.localOracle
          (requestOf cfg messages model temperature max_tokens) 10) := by
    rw [create_chat_completion_no_scan cfg world messages model temperature
      max_tokens hscan]
    rw [if_neg (by simp [hA]), if_pos hL]
  refine ⟨?_, ?_, get_message_string_nil, ?_⟩
  · rw [hdisp]
    obtain ⟨rest0, hhead⟩ := retryLoopAux_head_pos world.localOracle
      (requestOf cfg messages model temperature max_tokens) 10 10 0 false
      (by omega)
    rcases finishLocal_trace cfg (retryLoop world.localOracle
        (requestOf cfg messages model temperature max_tokens) 10) with ht | ht
    · rw [ht]
      rw [show (retryLoop world.localOracle
          (requestOf cfg messages model temperature max_tokens) 10).2
        = (retryLoopAux world.localOracle
            (requestOf cfg messages model temperature max_tokens) 10 0 false 10).2
        from rfl]
      rw [hhead, hreq]
      exact ⟨rest0, rfl⟩
    · rw [ht]
      rw [show (retryLoop world.localOracle
          (requestOf cfg messages model temperature max_tokens) 10).2
        = (retryLoopAux world.localOracle
            (requestOf cfg messages model temperature max_tokens) 10 0 false 10).2
        from rfl]
      rw [hhead, hreq]
      exact ⟨rest0 ++ [Event.fatalLog, Event.doubleCheck], by simp⟩
  · intro r hm
    rw [hdisp] at hm
    rcases finishLocal_trace cfg (retryLoop world.localOracle
        (requestOf cfg messages model temperature max_tokens) 10) with ht | ht
    · rw [ht] at hm
      have hr := retryLoopAux_calls_req world.localOracle
        (requestOf cfg messages model temperature max_tokens) 10 10 0 false r hm
      rw [hr, hreq]
    · rw [ht] at hm
      rw [List.mem_append] at hm
      rcases hm with hm | hm
      · have hr := retryLoopAux_calls_req world.localOracle
          (requestOf cfg messages model temperature max_tokens) 10 10 0 false r hm
        rw [hr, hreq]
      · simp at hm
  · intro m ms
    rw [get_message_string_cons]
    simp [String.append_assoc]

/-- C10: if all 10 attempts of `create_embedding_with_ada` fail with a
rate-limit error, the function falls off the end of its loop and
returns `None`: no exception is raised and no fatal log is written; and
whenever `create_embedding_with_ada` does raise, the error is an
`APIError` whose status is not 502, or a 502 raised only on the final
(10th) attempt. -/
theorem c10_embed_all_rate_returns_none
    (oracle : Nat → Except BackendError Embedding) (text : String)
    (hall : ∀ j, j < 10 → oracle j = Except.error BackendError.rateLimit) :
    (create_embedding_with_ada oracle text).1 = EmbedOutcome.returnedNone
    ∧ Event.fatalLog ∉ (create_embedding_with_ada oracle text).2
    ∧ (∀ (oracle2 : Nat → Except BackendError Embedding) (text2 : String)
        (e : BackendError) (tr2 : List Event),
        create_embedding_with_ada oracle2 text2 = (.raisedE e, tr2) →
        ∃ s, e = BackendError.apiError s
          ∧ (s ≠ 502 ∨ countEmbedCalls tr2 = 10)) := by
  refine ⟨?_, ?_, ?_⟩
  · exact embedLoopAux_all_rate oracle text 10 10 0
      (fun j h1 h2 => hall j (by omega))
  · exact embedLoopAux_no_fatal oracle text 10 10 0
  · intro oracle2 text2 e tr2 h
    obtain ⟨s, hse, hdisj⟩ := embedLoopAux_raise_inv oracle2 text2 10 0 e tr2
      (by omega) h
    refine ⟨s, hse, ?_⟩
    rcases hdisj with hd | hd
    · exact Or.inl hd
    · exact Or.inr (by omega)

/-! ## Witnesses: the claim theorems applied at concrete runs -/

/-- Witness for C1 at a concrete run (rate limit once, then success). -/
theorem c1_retry_policy_witness :
    countCalls (create_chat_completion cfgHosted worldRateThenOK msgsEx
      none 1 none).2 ≤ 10 :=
  (c1_retry_policy cfgHosted worldRateThenOK msgsEx none 1 none
    (create_chat_completion cfgHosted worldRateThenOK msgsEx none 1 none).1
    (create_chat_completion cfgHosted worldRateThenOK msgsEx none 1 none).2
    rfl).1

/-- Witness for C2 (amended) at a concrete run. -/
theorem c2_plugin_short_circuit_witness :
    create_chat_completion cfgOnePlugin worldOK msgsEx none 1 none
      = (DispatchOutcome.returned "hello", []) :=
  c2_plugin_short_circuit cfgOnePlugin worldOK msgsEx none 1 none "hello" rfl

/-- Witness for C3 at a concrete run (rate limit, then status 503 on
attempt 1). -/
theorem c3_non502_propagates_witness :
    ∃ tr, create_chat_completion cfgHosted world503At1 msgsEx none 1 none
        = (DispatchOutcome.raised (BackendError.apiError 503), tr)
      ∧ countCalls tr = 2
      ∧ tr.getLast? = some (Event.backendCall
          (requestOf cfgHosted msgsEx none 1 none)) :=
  c3_non502_propagates cfgHosted world503At1 msgsEx none 1 none 1 503 rfl
    (by omega)
    (fun j hj => by
      have hj0 : j = 0 := by omega
      subst hj0
      exact Or.inl rfl)
    rfl (by decide)

/-- Witness for C4 at a concrete run (502 on every attempt). -/
theorem c4_502_last_attempt_propagates_witness :
    ∃ tr, create_chat_completion cfgHosted world502 msgsEx none 1 none
        = (DispatchOutcome.raised (BackendError.apiError 502), tr)
      ∧ countCalls tr = 10
      ∧ (∀ s, DispatchOutcome.raised (BackendError.apiError 502)
          ≠ DispatchOutcome.returned s) :=
  c4_502_last_attempt_propagates cfgHosted world502 msgsEx none 1 none rfl
    (fun _j _hj => Or.inr rfl) rfl

/-- Witness for C5 at a concrete run (rate limit on every attempt). -/
theorem c5_exhaustion_witness :
    (create_chat_completion cfgHosted worldAllRate msgsEx none 1 none).1
        = (if cfgHosted.debug_mode then DispatchOutcome.raisedRuntimeError
          else DispatchOutcome.exited 1)
      ∧ (∃ pre, (create_chat_completion cfgHosted worldAllRate msgsEx
          none 1 none).2 = pre ++ [Event.fatalLog, Event.doubleCheck])
      ∧ (∀ s, (create_chat_completion cfgHosted worldAllRate msgsEx
          none 1 none).1 ≠ DispatchOutcome.returned s) :=
  c5_exhaustion cfgHosted worldAllRate msgsEx none 1 none
    (create_chat_completion cfgHosted worldAllRate msgsEx none 1 none).1
    (create_chat_completion cfgHosted worldAllRate msgsEx none 1 none).2
    rfl (fun _j _hj => Or.inl rfl) rfl

/-- Witness for C7 (amended), exercising both retry conjuncts: the
rate-limit retry on a rate-limit-then-success oracle, and the
non-final-502 retry after the backoff sleep on a 502-then-success
oracle. -/
theorem c7_embedding_split_witness :
    (create_embedding_with_ada embedOracleRateThenOK "hi"
      = (EmbedOutcome.returnedVec [],
         [Event.embedCall ["hi"] "text-embedding-ada-002", Event.sleep 4,
          Event.embedCall ["hi"] "text-embedding-ada-002"]))
    ∧ (∃ pre, create_embedding_with_ada embedOracle502ThenOK "hi"
        = (EmbedOutcome.returnedVec [],
           pre ++ [Event.embedCall ["hi"] "text-embedding-ada-002",
            Event.sleep (2 ^ (0 + 2)),
            Event.embedCall ["hi"] "text-embedding-ada-002"])
      ∧ countEmbedCalls pre = 0) :=
  ⟨c7_embedding_split.2.2.2.1 embedOracleRateThenOK "hi" [] rfl rfl,
   c7_embedding_split.2.2.2.2.1 embedOracle502ThenOK "hi" 0 [] (by decide)
     (fun j hj => absurd hj (by omega)) rfl rfl⟩

/-- Witness for C9 at a concrete local-model run. -/
theorem c9_local_transcript_witness :
    ∃ rest, (create_chat_completion cfgLocal worldOK msgsEx none 1 none).2
      = Event.backendCall (BackendRequest.localReq none
          (get_message_string msgsEx) ⟨none, 50256, 50256⟩) :: rest :=
  (c9_local_transcript cfgLocal worldOK msgsEx none 1 none rfl rfl rfl).1

/-- Witness for C10 at a concrete all-rate-limit oracle. -/
theorem c10_embed_all_rate_returns_none_witness :
    (create_embedding_with_ada embedOracleAllRate "x").1
      = EmbedOutcome.returnedNone :=
  (c10_embed_all_rate_returns_none embedOracleAllRate "x" (fun _j _hj => rfl)).1

end LlmUtils
